import Mathlib

/-!
Verification development for the MHBench cyber-range generator.

The Python source is shallowly embedded: pydantic models become structures,
UUIDs become `Nat` identifiers, Python dicts (which preserve insertion order
and are only ever keyed by the stored object's own id) become ordered lists,
and functions that can `raise` return `Except`. Each definition mirrors one
function or class of the repository; the file then proves or refutes the
frozen claims about them.
-/

set_option linter.unusedVariables false

/-! ## Enumerations (src/src/models/enums.py, vulnerabilities.py) -/

/-- Model of `OSType`. -/
inductive OSType
  | ubuntu20
  | kaliLinux
deriving DecidableEq, Repr, Inhabited

/-- Model of `FlavorType`. -/
inductive FlavorType
  | tiny
  | small
  | medium
  | large
deriving DecidableEq, Repr, Inhabited

/-- Model of `VulnerabilityType`. -/
inductive VulnerabilityType
  | privilegeEscalation
  | lateralMovement
deriving DecidableEq, Repr, Inhabited

/-- Model of `GoalType`. -/
inductive GoalType
  | dataExfiltration
  | hostAccess
deriving DecidableEq, Repr, Inhabited

/-- Model of `ProtocolType`. -/
inductive ProtocolType
  | tcp
  | udp
  | icmp
deriving DecidableEq, Repr, Inhabited

/-- Model of `MergeStrategy` (src/src/models/vulnerabilities.py). -/
inductive MergeStrategy
  | noMerge
  | byHost
  | byTargetHost
  | byEdge
deriving DecidableEq, Repr, Inhabited

/-- Model of `Vulnerability` (src/src/models/vulnerabilities.py).
IP addresses are kept as strings, as in the source. -/
structure Vulnerability where
  type : VulnerabilityType
  playbook_path : String
  merge_strategy : MergeStrategy
  internal_only : Bool
  from_host_ip : String
  to_host_ip : String
  from_user : String
  to_user : String
deriving DecidableEq, Repr, Inhabited

/-! ## Users and hosts (src/src/models/components.py, network.py) -/

/-- Model of `User` (src/src/models/components.py). `id` models the UUID. -/
structure User where
  id : Nat
  username : String
  password : String
  is_admin : Bool
  is_decoy : Bool
  ssh_keys : List Nat
  home_directory : String
deriving DecidableEq, Repr, Inhabited

/-- Model of `create_default_root_user`. `uuid4` is modelled by passing the
fresh identifier in explicitly. -/
def createDefaultRootUser (fresh_id : Nat) : User :=
  { id := fresh_id
    username := "root"
    password := "perry123"
    is_admin := true
    is_decoy := false
    ssh_keys := []
    home_directory := "/root" }

/-- Model of `Host` (src/src/models/network.py). The raw record, before the
`_ensure_root_user` post-construction fixup. -/
structure Host where
  id : Nat
  name : String
  os_type : OSType
  flavor : FlavorType
  ip_address : Option String
  users : List User
  vulnerabilities : List Vulnerability
  is_attacker : Bool
  is_decoy : Bool
deriving DecidableEq, Repr, Inhabited

/-- Root-user existence test used by `Host._ensure_root_user`. -/
def Host.hasRootUser (h : Host) : Bool :=
  h.users.any (fun u => u.username == "root")

/-- Model of the `Host._ensure_root_user` pydantic `model_validator`,
which runs right after construction. The fresh UUID consumed by
`create_default_root_user` is passed in as `fresh_id`. -/
def Host.ensureRootUser (h : Host) (fresh_id : Nat) : Host :=
  if h.hasRootUser then h
  else { h with users := h.users ++ [createDefaultRootUser fresh_id] }

/-- Model of `Host.get_user_by_username` (first user with that name). -/
def Host.getUserByUsername (h : Host) (username : String) : Option User :=
  h.users.find? (fun u => u.username == username)

/-- Model of `Host.get_root_user`; raises when no user is named root. -/
def Host.getRootUser (h : Host) : Except String User :=
  match h.getUserByUsername "root" with
  | none => .error "Root user not found"
  | some u => .ok u

/-! ## Subnets, networks, connections, goals (src/src/models/network.py, goals.py) -/

/-- Model of `SubnetConnection`. -/
structure SubnetConnection where
  from_subnet : String
  to_subnet : String
  protocol : Option ProtocolType
  ports : Option (List Nat)
  bidirectional : Bool
deriving DecidableEq, Repr, Inhabited

/-- Model of `SubnetConnection.allows_traffic`. -/
def SubnetConnection.allowsTraffic (c : SubnetConnection)
    (protocol : ProtocolType) (port : Nat) : Bool :=
  if (match c.protocol with
      | some p => p != protocol
      | none => false) then false
  else if (match c.ports with
      | some ps => !(ps.contains port)
      | none => false) then false
  else true

/-- Model of `Subnet`. CIDRs and addresses are kept as strings. -/
structure Subnet where
  id : Nat
  name : String
  cidr : String
  dns_servers : List String
  hosts : List Host
  gateway_ip : Option String
  external : Bool
deriving DecidableEq, Repr, Inhabited

/-- Model of the computed field `Subnet.sg_name`. -/
def Subnet.sgName (s : Subnet) : String :=
  s.name ++ "_sg"

/-- Model of `Network`. -/
structure Network where
  name : String
  description : String
  subnets : List Subnet
  is_external : Bool
deriving DecidableEq, Repr, Inhabited

/-- Shared fields of `Goal` (src/src/models/goals.py). -/
structure Goal where
  type : GoalType
  target_host_id : Nat
  target_user_id : Nat
deriving DecidableEq, Repr, Inhabited

/-- Model of the `GoalUnion` of goal classes: `Goal`,
`DataExfiltrationGoal`, `JSONDataExfiltrationGoal`. -/
inductive GoalU
  | base (goal : Goal)
  | dataExfiltration (goal : Goal) (playbook_path host_ip : String)
  | jsonDataExfiltration (goal : Goal) (playbook_path host_ip src_path dst_path host_user : String)
deriving DecidableEq, Repr, Inhabited

/-- Target host id of any goal variant. -/
def GoalU.targetHostId : GoalU → Nat
  | .base g => g.target_host_id
  | .dataExfiltration g _ _ => g.target_host_id
  | .jsonDataExfiltration g _ _ _ _ _ => g.target_host_id

/-- Target user id of any goal variant. -/
def GoalU.targetUserId : GoalU → Nat
  | .base g => g.target_user_id
  | .dataExfiltration g _ _ => g.target_user_id
  | .jsonDataExfiltration g _ _ _ _ _ => g.target_user_id

/-! ## Attack paths (src/src/models/attack_paths.py) -/

/-- Model of the tagged step union `LateralMovementStep` and
`PrivilegeEscalationStep`. Both vulnerability slots are optional in the
source; the subclass tags of the vulnerability are not tracked separately. -/
inductive AttackStep
  | lateralMovement (from_host_id to_host_id from_user_id to_user_id : Nat)
      (vulnerability : Option Vulnerability)
  | privilegeEscalation (host_id from_user_id to_user_id : Nat)
      (vulnerability : Option Vulnerability)
deriving DecidableEq, Repr, Inhabited

/-- Model of `get_source_host_id` of each variant. -/
def AttackStep.sourceHostId : AttackStep → Nat
  | .lateralMovement fh _ _ _ _ => fh
  | .privilegeEscalation h _ _ _ => h

/-- Model of `get_target_host_id` of each variant. -/
def AttackStep.targetHostId : AttackStep → Nat
  | .lateralMovement _ th _ _ _ => th
  | .privilegeEscalation h _ _ _ => h

/-- Model of `get_source_user_id` of each variant. -/
def AttackStep.sourceUserId : AttackStep → Nat
  | .lateralMovement _ _ fu _ _ => fu
  | .privilegeEscalation _ fu _ _ => fu

/-- Model of `get_target_user_id` of each variant. -/
def AttackStep.targetUserId : AttackStep → Nat
  | .lateralMovement _ _ _ tu _ => tu
  | .privilegeEscalation _ _ tu _ => tu

/-- Model of `AttackPath`. The free-form `metadata` dict is omitted; no
claim concerns it. -/
structure AttackPath where
  id : Nat
  start_host_id : Nat
  start_user_id : Nat
  target_host_id : Nat
  target_user_id : Nat
  steps : List AttackStep
deriving DecidableEq, Repr, Inhabited

/-- Model of `AttackPath.get_hop_host_ids`. -/
def AttackPath.getHopHostIds (p : AttackPath) : List Nat :=
  p.start_host_id :: p.steps.map AttackStep.targetHostId

/-- Step-to-step handoff checks of `validate_path_continuity`. The source
guard `next_step.from_user_id and ...` always takes the comparison branch
because UUID objects are unconditionally truthy in Python. -/
def stepsConnect : List AttackStep → Bool
  | [] => true
  | [_] => true
  | s :: s2 :: rest =>
    if s.targetHostId != s2.sourceHostId then false
    else
      match s, s2 with
      | .privilegeEscalation _ _ toU _, .lateralMovement _ _ fromU _ _ =>
        if toU != fromU then false else stepsConnect (s2 :: rest)
      | .privilegeEscalation _ _ toU _, .privilegeEscalation _ fromU _ _ =>
        if toU != fromU then false else stepsConnect (s2 :: rest)
      | _, _ => stepsConnect (s2 :: rest)

/-- Model of `AttackPath.validate_path_continuity`. -/
def AttackPath.validatePathContinuity (p : AttackPath) : Bool :=
  match p.steps with
  | [] => false
  | s0 :: rest =>
    if s0.sourceHostId != p.start_host_id || s0.sourceUserId != p.start_user_id then false
    else if !(stepsConnect (s0 :: rest)) then false
    else
      let last := rest.getLastD s0
      if last.targetHostId != p.target_host_id || last.targetUserId != p.target_user_id then
        false
      else true

/-! ## Network topology (src/src/models/network.py, class NetworkTopology) -/

/-- Model of `NetworkTopology`. The `attack_graph` field is introduced
further below together with the graph model; here only the fields needed
by the topology operations appear. Forward reference is avoided by adding
the graph slot when the graph type is defined; no topology operation in
the source reads `attack_graph` except `apply_vulnerabilities`, which no
claim concerns, so the slot is omitted from this structure. -/
structure NetworkTopology where
  name : String
  networks : List Network
  subnet_connections : List SubnetConnection
  goals : List GoalU
  attack_paths : List AttackPath
  attacker_host : Option Host
deriving DecidableEq, Repr, Inhabited

/-- Model of `NetworkTopology.get_all_hosts`. -/
def NetworkTopology.getAllHosts (t : NetworkTopology) (include_attacker : Bool) : List Host :=
  let hosts := t.networks.flatMap (fun n => n.subnets.flatMap (fun s => s.hosts))
  match t.attacker_host with
  | some a => if include_attacker then hosts ++ [a] else hosts
  | none => hosts

/-- Model of `NetworkTopology.get_host_by_id` (first host with that id). -/
def NetworkTopology.getHostById (t : NetworkTopology) (host_id : Nat)
    (include_attacker : Bool) : Option Host :=
  (t.getAllHosts include_attacker).find? (fun h => h.id == host_id)

/-- Model of `NetworkTopology.get_all_subnets`. -/
def NetworkTopology.getAllSubnets (t : NetworkTopology) : List Subnet :=
  t.networks.flatMap (fun n => n.subnets)

/-- Model of `NetworkTopology.get_subnet_by_name` (first subnet with that name). -/
def NetworkTopology.getSubnetByName (t : NetworkTopology) (name : String) : Option Subnet :=
  t.getAllSubnets.find? (fun s => s.name == name)

/-- Model of `NetworkTopology.get_subnet_for_host`. The Python membership
test `host in subnet.hosts` uses pydantic structural equality, modelled by
decidable equality on the whole record. -/
def NetworkTopology.getSubnetForHost (t : NetworkTopology) (host : Host) : Option Subnet :=
  t.getAllSubnets.find? (fun s => s.hosts.any (fun h2 => decide (h2 = host)))

/-- Body of the connection scan in `can_subnets_communicate`: the first
matching (direct or bidirectional) connection decides the result. -/
def canCommLoop (from_subnet to_subnet : String) (protocol : Option ProtocolType)
    (port : Option Nat) : List SubnetConnection → Bool
  | [] => false
  | conn :: rest =>
    if conn.from_subnet == from_subnet && conn.to_subnet == to_subnet then
      match protocol, port with
      | some pr, some po => conn.allowsTraffic pr po
      | _, _ => true
    else if conn.bidirectional && conn.from_subnet == to_subnet
        && conn.to_subnet == from_subnet then
      match protocol, port with
      | some pr, some po => conn.allowsTraffic pr po
      | _, _ => true
    else canCommLoop from_subnet to_subnet protocol port rest

/-- Model of `NetworkTopology.can_subnets_communicate`. -/
def NetworkTopology.canSubnetsCommunicate (t : NetworkTopology)
    (from_subnet to_subnet : String) (protocol : Option ProtocolType)
    (port : Option Nat) : Bool :=
  if from_subnet == to_subnet then true
  else canCommLoop from_subnet to_subnet protocol port t.subnet_connections

/-- Inner `for conn in self.subnet_connections` scan of one BFS round of
`find_subnet_path`. `Except.error` models the early `return new_path`.
The source guard `if next_subnet and next_subnet not in visited` treats the
empty string as falsy, hence the explicit `n != ""` test. -/
def bfsScanConns (target cur : String) (path : List String) :
    List SubnetConnection → List (String × List String) → List String →
    Except (List String) (List (String × List String) × List String)
  | [], queue, visited => .ok (queue, visited)
  | conn :: rest, queue, visited =>
    let next : Option String :=
      if conn.from_subnet == cur then some conn.to_subnet
      else if conn.bidirectional && conn.to_subnet == cur then some conn.from_subnet
      else none
    match next with
    | some n =>
      if n != "" && !(visited.contains n) then
        let new_path := path ++ [n]
        if n == target then .error new_path
        else bfsScanConns target cur path rest (queue ++ [(n, new_path)]) (visited ++ [n])
      else bfsScanConns target cur path rest queue visited
    | none => bfsScanConns target cur path rest queue visited

/-- The `while queue` loop of `find_subnet_path`. Every enqueue marks a new
name visited, and candidate names come from connection endpoints, so the
number of dequeues is at most `2 * connections + 1`; the fuel passed by
`findSubnetPath` therefore never runs out. -/
def bfsLoop (conns : List SubnetConnection) (target : String) :
    Nat → List (String × List String) → List String → Option (List String)
  | 0, _, _ => none
  | _, [], _ => none
  | fuel + 1, (cur, path) :: queue, visited =>
    match bfsScanConns target cur path conns queue visited with
    | .error found => some found
    | .ok (queue2, visited2) => bfsLoop conns target fuel queue2 visited2

/-- Model of `NetworkTopology.find_subnet_path`. -/
def NetworkTopology.findSubnetPath (t : NetworkTopology)
    (from_subnet to_subnet : String) : Option (List String) :=
  if from_subnet == to_subnet then some [from_subnet]
  else
    bfsLoop t.subnet_connections to_subnet (2 * t.subnet_connections.length + 2)
      [(from_subnet, [from_subnet])] [from_subnet]

/-- Model of `NetworkTopology.validate_subnet_connectivity`: error strings
accumulated over connections in order. -/
def NetworkTopology.validateSubnetConnectivity (t : NetworkTopology) : List String :=
  let all_subnet_names := t.getAllSubnets.map Subnet.name
  t.subnet_connections.flatMap (fun conn =>
    (if !(all_subnet_names.contains conn.from_subnet) then
      ["Subnet connection references unknown subnet: " ++ conn.from_subnet]
    else []) ++
    (if !(all_subnet_names.contains conn.to_subnet) then
      ["Subnet connection references unknown subnet: " ++ conn.to_subnet]
    else []))

/-- Structured form of the exceptions raised by
`NetworkTopology._validate_topology`; each constructor carries the data
interpolated into the source's message string. -/
inductive TopologyValidationError
  | unknownHosts (path_id : Nat) (missing : List Nat)
  | discontinuousPath (path_id : Nat)
  | subnetConnectivity (errors : List String)
deriving DecidableEq, Repr

/-- The known host ids used by `_validate_topology`: all topology hosts
plus the attacker host when present. -/
def NetworkTopology.allKnownHostIds (t : NetworkTopology) : List Nat :=
  (t.getAllHosts false).map Host.id ++
    (match t.attacker_host with
     | some a => [a.id]
     | none => [])

/-- The `for path in self.attack_paths` loop of `_validate_topology`.
The Python set difference `set(hops) - all_host_ids` is modelled as the
deduplicated list of hop ids outside the known set. -/
def validatePathsLoop (all_host_ids : List Nat) :
    List AttackPath → Except TopologyValidationError Unit
  | [] => .ok ()
  | path :: rest =>
    let missing := (path.getHopHostIds.filter (fun h => !(all_host_ids.contains h))).dedup
    if missing.isEmpty then
      if path.validatePathContinuity then validatePathsLoop all_host_ids rest
      else .error (.discontinuousPath path.id)
    else .error (.unknownHosts path.id missing)

/-- Model of the `_validate_topology` pydantic `model_validator`, which
runs at construction time. -/
def NetworkTopology.validateTopology (t : NetworkTopology) :
    Except TopologyValidationError Unit :=
  match validatePathsLoop t.allKnownHostIds t.attack_paths with
  | .error e => .error e
  | .ok _ =>
    let errors := t.validateSubnetConnectivity
    if errors.isEmpty then .ok () else .error (.subnetConnectivity errors)

/-! ## Attack graph (src/src/models/attack_graph.py)

The source stores nodes and edges in insertion-ordered dicts keyed by the
stored object's own `id` (`graph.nodes[node.id] = node`,
`graph.edges[edge.id] = edge`, and the serialised round-trip preserves
this); the dicts are therefore modelled as ordered lists of the values,
and `graph.nodes[key]` becomes a first-match lookup on the `id` field. -/

/-- Model of `AttackGraphNode`. -/
structure AttackGraphNode where
  id : Nat
  host_id : Nat
  user_id : Nat
deriving DecidableEq, Repr, Inhabited

/-- Model of `AttackGraphEdge`. -/
structure AttackGraphEdge where
  id : Nat
  from_node_id : Nat
  to_node_id : Nat
  is_lateral_movement : Bool
  vulnerability : Option Vulnerability
deriving DecidableEq, Repr, Inhabited

/-- Model of `AttackGraph`. -/
structure AttackGraph where
  nodes : List AttackGraphNode
  edges : List AttackGraphEdge
  adjacency : List (Nat × List Nat)
deriving DecidableEq, Repr, Inhabited

/-- Model of `AttackGraph.get_edges_to_node`. -/
def AttackGraph.getEdgesToNode (g : AttackGraph) (node_id : Nat) : List AttackGraphEdge :=
  g.edges.filter (fun e => e.to_node_id == node_id)

/-- Model of `AttackGraph.get_edges_from_node`. -/
def AttackGraph.getEdgesFromNode (g : AttackGraph) (node_id : Nat) : List AttackGraphEdge :=
  g.edges.filter (fun e => e.from_node_id == node_id)

/-- Lookup modelling the dict access `graph.nodes[node_id]`. -/
def AttackGraph.findNodeById (g : AttackGraph) (node_id : Nat) : Option AttackGraphNode :=
  g.nodes.find? (fun n => n.id == node_id)

/-- Model of `_merge_to_node`: redirect the merged node's incoming and
outgoing edges to the representative, then delete the merged node and its
adjacency entry. Both edge snapshots are taken before any mutation, as in
the source, so an edge appearing in both lists has both endpoints
rewritten. -/
def mergeToNode (g : AttackGraph) (base_node node_to_merge : AttackGraphNode) : AttackGraph :=
  { g with
    edges := g.edges.map (fun e =>
      let e1 := if e.to_node_id == node_to_merge.id then
          { e with to_node_id := base_node.id } else e
      let e2 := if e1.from_node_id == node_to_merge.id then
          { e1 with from_node_id := base_node.id } else e1
      e2)
    nodes := g.nodes.filter (fun n => n.id != node_to_merge.id)
    adjacency := g.adjacency.filter (fun kv => kv.1 != node_to_merge.id) }

/-- The filter `edge.vulnerability and edge.vulnerability.merge_strategy ==
MergeStrategy.BY_HOST` applied inside `prune_edges_by_host`; a `None`
vulnerability is falsy. -/
def isByHostEdge (e : AttackGraphEdge) : Bool :=
  match e.vulnerability with
  | some v => v.merge_strategy == MergeStrategy.byHost
  | none => false

/-- Body of one iteration of the `for node_id in graph.nodes.keys()` loop
of `prune_edges_by_host`. The `by_host_edges` snapshot holds the edge
values read before the inner loop; since (as proved below) no iteration
ever mutates the graph, the by-value snapshot coincides with the live
objects the source re-reads. The lookups `graph.nodes[...]` use `getD`
with a default that is only reachable through a `KeyError`, which cannot
occur because every key looked up equals `node_id`, a key of the node
map. -/
def pruneNodeStep (g : AttackGraph) (node_id : Nat) : AttackGraph :=
  if 1 < ((g.getEdgesToNode node_id).filter isByHostEdge).length then
    match (g.getEdgesToNode node_id).filter isByHostEdge with
    | [] => g
    | representative_edge :: rest =>
      rest.foldl (fun acc e =>
        if ((acc.findNodeById e.to_node_id).getD default).id !=
            ((g.findNodeById representative_edge.to_node_id).getD default).id then
          mergeToNode acc
            ((g.findNodeById representative_edge.to_node_id).getD default)
            ((acc.findNodeById e.to_node_id).getD default)
        else acc) g
  else g

/-- Model of `prune_edges_by_host`. The source iterates over the live
`graph.nodes.keys()` view; since no iteration mutates the graph (proved
below), iterating over the initial key snapshot is equivalent. -/
def pruneEdgesByHost (g : AttackGraph) : AttackGraph :=
  if g.edges.isEmpty then g
  else (g.nodes.map AttackGraphNode.id).foldl pruneNodeStep g

/-! ### Prune is the identity

Every edge collected for `node_id` satisfies `to_node_id = node_id`, so
the representative's target node and each candidate's target node are the
same lookup; the merge guard `to_node.id != representative_to_node.id`
is therefore never taken. -/

theorem pruneFold_no_merge (g : AttackGraph) (node_id : Nat)
    (representative_edge : AttackGraphEdge)
    (hrep : representative_edge.to_node_id = node_id) :
    ∀ l : List AttackGraphEdge, (∀ e ∈ l, e.to_node_id = node_id) →
      l.foldl (fun acc e =>
        if ((acc.findNodeById e.to_node_id).getD default).id !=
            ((g.findNodeById representative_edge.to_node_id).getD default).id then
          mergeToNode acc
            ((g.findNodeById representative_edge.to_node_id).getD default)
            ((acc.findNodeById e.to_node_id).getD default)
        else acc) g = g := by
  intro l
  induction l with
  | nil => intro _; rfl
  | cons e rest ih =>
    intro hall
    have he : e.to_node_id = node_id := hall e (List.mem_cons_self e rest)
    have hstep :
        (if ((g.findNodeById e.to_node_id).getD default).id !=
            ((g.findNodeById representative_edge.to_node_id).getD default).id then
          mergeToNode g
            ((g.findNodeById representative_edge.to_node_id).getD default)
            ((g.findNodeById e.to_node_id).getD default)
        else g) = g := by
      rw [he, hrep]
      simp
    simp only [List.foldl_cons]
    rw [hstep]
    exact ih (fun e' he' => hall e' (List.mem_cons_of_mem e he'))

theorem pruneNodeStep_eq_self (g : AttackGraph) (node_id : Nat) :
    pruneNodeStep g node_id = g := by
  have hto : ∀ e ∈ (g.getEdgesToNode node_id).filter isByHostEdge,
      e.to_node_id = node_id := by
    intro e he
    have he2 : e ∈ g.edges.filter (fun e => e.to_node_id == node_id) :=
      List.mem_of_mem_filter he
    have h3 := List.of_mem_filter he2
    exact eq_of_beq h3
  unfold pruneNodeStep
  cases hsplit : (g.getEdgesToNode node_id).filter isByHostEdge with
  | nil => simp
  | cons representative_edge rest =>
    by_cases hlen : 1 < (representative_edge :: rest).length
    · have hrep : representative_edge.to_node_id = node_id := by
        apply hto
        rw [hsplit]
        exact List.mem_cons_self _ _
      simp only [hlen, if_true]
      exact pruneFold_no_merge g node_id representative_edge hrep rest
        (fun e he => hto e (by rw [hsplit]; exact List.mem_cons_of_mem _ he))
    · simp only [hlen, if_false]

theorem pruneEdgesByHost_eq_self (g : AttackGraph) : pruneEdgesByHost g = g := by
  unfold pruneEdgesByHost
  by_cases h : g.edges.isEmpty
  · simp [h]
  · simp only [h, if_false]
    generalize g.nodes.map AttackGraphNode.id = keys
    induction keys with
    | nil => rfl
    | cons k rest ih =>
      simp only [List.foldl_cons, pruneNodeStep_eq_self]
      exact ih

/-! ### Claims C1 and C2 -/

/-- A concrete `by_host` lateral-movement vulnerability (the
`ApacheStrutsVulnerability` defaults from src/src/models/vulnerabilities.py). -/
def strutsVuln : Vulnerability :=
  { type := .lateralMovement
    playbook_path := "vulnerabilities/apacheStruts/setupStruts.yml"
    merge_strategy := .byHost
    internal_only := false
    from_host_ip := ""
    to_host_ip := ""
    from_user := ""
    to_user := "" }

/-- The graph of the C1 scenario: two lateral-movement edges from the
distinct source nodes 0 and 1 land on the distinct nodes 2 and 3, and both
edges carry the same `by_host` vulnerability. -/
def c1Graph : AttackGraph :=
  { nodes :=
      [ { id := 0, host_id := 100, user_id := 200 }
      , { id := 1, host_id := 101, user_id := 201 }
      , { id := 2, host_id := 102, user_id := 202 }
      , { id := 3, host_id := 103, user_id := 203 } ]
    edges :=
      [ { id := 10, from_node_id := 0, to_node_id := 2, is_lateral_movement := true
          vulnerability := some strutsVuln }
      , { id := 11, from_node_id := 1, to_node_id := 3, is_lateral_movement := true
          vulnerability := some strutsVuln } ]
    adjacency := [(0, [10]), (1, [11])] }

/-- C1: in the scenario of two lateral-movement edges from distinct sources
landing on the distinct nodes 2 and 3, both carrying the same `by_host`
vulnerability, `prune_edges_by_host` changes nothing: all four nodes
survive and the two edges still terminate at the two distinct nodes 2 and
3, contrary to the claimed collapse of the two target nodes into one
surviving node. The merge branch of the source is unreachable because the
candidate edges for a node are grouped by their common target node. -/
theorem claim_C1_pruneByHost_scenario_no_collapse :
    pruneEdgesByHost c1Graph = c1Graph ∧
    c1Graph.nodes.length = 4 ∧
    (pruneEdgesByHost c1Graph).nodes.length = 4 ∧
    ((pruneEdgesByHost c1Graph).edges.map AttackGraphEdge.to_node_id) = [2, 3] := by
  refine ⟨pruneEdgesByHost_eq_self c1Graph, rfl, ?_, ?_⟩ <;>
    rw [pruneEdgesByHost_eq_self] <;> rfl

/-- C2: `prune_edges_by_host` is idempotent. For every attack graph, a
second application changes neither the node count nor the edge count, and
in fact changes nothing at all (the pass is the identity on every graph). -/
theorem claim_C2_pruneByHost_idempotent (g : AttackGraph) :
    pruneEdgesByHost (pruneEdgesByHost g) = pruneEdgesByHost g ∧
    (pruneEdgesByHost (pruneEdgesByHost g)).nodes.length
      = (pruneEdgesByHost g).nodes.length ∧
    (pruneEdgesByHost (pruneEdgesByHost g)).edges.length
      = (pruneEdgesByHost g).edges.length := by
  simp [pruneEdgesByHost_eq_self]

/-! ### Claim C9: every host gains a root user, idempotently -/

theorem ensureRootUser_hasRoot (h : Host) (i : Nat) :
    (h.ensureRootUser i).hasRootUser = true := by
  unfold Host.ensureRootUser
  by_cases hr : h.hasRootUser = true
  · rw [if_pos hr]
    exact hr
  · rw [if_neg hr]
    simp [Host.hasRootUser, createDefaultRootUser]

/-- C9: immediately after construction every host has a root user: the
`_ensure_root_user` fixup appends exactly one default root user when the
supplied list has none, leaves a host that already has one untouched, and
is idempotent. -/
theorem claim_C9_ensure_root_user (h : Host) (i j : Nat) :
    (h.ensureRootUser i).hasRootUser = true ∧
    (h.ensureRootUser i).ensureRootUser j = h.ensureRootUser i ∧
    (h.hasRootUser = true → h.ensureRootUser i = h) ∧
    (h.hasRootUser = false →
      (h.ensureRootUser i).users = h.users ++ [createDefaultRootUser i]) := by
  refine ⟨ensureRootUser_hasRoot h i, ?_, ?_, ?_⟩
  · have h2 := ensureRootUser_hasRoot h i
    generalize hx : h.ensureRootUser i = x at h2 ⊢
    unfold Host.ensureRootUser
    simp [h2]
  · intro hr
    simp [Host.ensureRootUser, hr]
  · intro hr
    simp [Host.ensureRootUser, hr]

/-- A host whose supplied user list has no root user. -/
def sampleHostNoRoot : Host :=
  { id := 5
    name := "web1"
    os_type := .ubuntu20
    flavor := .tiny
    ip_address := none
    users := [{ id := 1, username := "alice", password := "perry123",
                is_admin := false, is_decoy := false, ssh_keys := [],
                home_directory := "/home/alice/" }]
    vulnerabilities := []
    is_attacker := false
    is_decoy := false }

theorem claim_C9_ensure_root_user_witness :
    sampleHostNoRoot.hasRootUser = false ∧
    (sampleHostNoRoot.ensureRootUser 9).users
      = sampleHostNoRoot.users ++ [createDefaultRootUser 9] ∧
    (sampleHostNoRoot.ensureRootUser 9).ensureRootUser 11
      = sampleHostNoRoot.ensureRootUser 9 :=
  ⟨by decide,
   (claim_C9_ensure_root_user sampleHostNoRoot 9 11).2.2.2 (by decide),
   (claim_C9_ensure_root_user sampleHostNoRoot 9 11).2.1⟩

/-! ### Claim C10: the allow-list is consulted only when both protocol and port are given -/

/-- A connection that joins `from_subnet` to `to_subnet`, directly or
through its bidirectional reverse: the two guards of the scan in
`can_subnets_communicate`. -/
def connMatches (c : SubnetConnection) (from_subnet to_subnet : String) : Bool :=
  (c.from_subnet == from_subnet && c.to_subnet == to_subnet) ||
  (c.bidirectional && c.from_subnet == to_subnet && c.to_subnet == from_subnet)

theorem canCommLoop_true_of_match (from_subnet to_subnet : String)
    (protocol : Option ProtocolType) (port : Option Nat)
    (hpp : protocol = none ∨ port = none) :
    ∀ l : List SubnetConnection,
      (∃ c ∈ l, connMatches c from_subnet to_subnet = true) →
      canCommLoop from_subnet to_subnet protocol port l = true := by
  intro l
  induction l with
  | nil => simp
  | cons c rest ih =>
    intro hex
    unfold canCommLoop
    by_cases h1 : c.from_subnet == from_subnet && c.to_subnet == to_subnet
    · simp only [h1, if_true]
      rcases hpp with h | h <;> subst h
      · cases port <;> rfl
      · cases protocol <;> rfl
    · by_cases h2 : c.bidirectional && c.from_subnet == to_subnet
          && c.to_subnet == from_subnet
      · simp only [h1, h2, if_true, if_false, Bool.false_eq_true]
        rcases hpp with h | h <;> subst h
        · cases port <;> rfl
        · cases protocol <;> rfl
      · simp only [h1, h2, if_false, Bool.false_eq_true]
        apply ih
        rcases hex with ⟨c', hc', hm⟩
        rcases List.mem_cons.mp hc' with rfl | hmem
        · exfalso
          unfold connMatches at hm
          rw [Bool.or_eq_true] at hm
          rcases hm with hm | hm
          · exact h1 hm
          · exact h2 (by simpa [Bool.and_assoc] using hm)
        · exact ⟨c', hmem, hm⟩

/-- C10: `can_subnets_communicate` consults a matching connection's
protocol/port allow-list only when both a protocol and a port are
supplied; if either is missing, a matching (direct or bidirectional)
connection yields `True` no matter what the allow-list says. -/
theorem claim_C10_allowlist_needs_protocol_and_port (t : NetworkTopology)
    (from_subnet to_subnet : String) (protocol : Option ProtocolType)
    (port : Option Nat) :
    from_subnet ≠ to_subnet →
    (∃ c ∈ t.subnet_connections, connMatches c from_subnet to_subnet = true) →
    (protocol = none ∨ port = none) →
    t.canSubnetsCommunicate from_subnet to_subnet protocol port = true := by
  intro _ hex hpp
  unfold NetworkTopology.canSubnetsCommunicate
  by_cases he : from_subnet == to_subnet
  · simp [he]
  · simp only [he, if_false, Bool.false_eq_true]
    exact canCommLoop_true_of_match from_subnet to_subnet protocol port hpp
      t.subnet_connections hex

/-- A TCP-port-80-only connection between two sample subnets. -/
def c10Conn : SubnetConnection :=
  { from_subnet := "dmz", to_subnet := "internal", protocol := some .tcp,
    ports := some [80], bidirectional := true }

/-- A topology holding only `c10Conn`. -/
def c10Topology : NetworkTopology :=
  { name := "c10", networks := [], subnet_connections := [c10Conn],
    goals := [], attack_paths := [], attacker_host := none }

theorem claim_C10_allowlist_needs_protocol_and_port_witness :
    c10Conn.allowsTraffic .udp 443 = false ∧
    c10Topology.canSubnetsCommunicate "dmz" "internal" (some .udp) none = true :=
  ⟨by decide,
   claim_C10_allowlist_needs_protocol_and_port c10Topology "dmz" "internal"
     (some .udp) none (by decide) ⟨c10Conn, by decide, by decide⟩ (Or.inr rfl)⟩

/-! ### Claim C7: construction-time topology validation -/

theorem missing_isEmpty_iff (ids : List Nat) (p : AttackPath) :
    ((p.getHopHostIds.filter (fun h => !(ids.contains h))).dedup).isEmpty = true ↔
      ∀ hid ∈ p.getHopHostIds, hid ∈ ids := by
  rw [List.isEmpty_iff, List.dedup_eq_nil]
  rw [List.filter_eq_nil_iff]
  simp

theorem validatePathsLoop_ok_iff (ids : List Nat) (l : List AttackPath) :
    validatePathsLoop ids l = .ok () ↔
      ∀ p ∈ l, (∀ hid ∈ p.getHopHostIds, hid ∈ ids)
        ∧ p.validatePathContinuity = true := by
  induction l with
  | nil => simp [validatePathsLoop]
  | cons p rest ih =>
    simp only [validatePathsLoop, List.forall_mem_cons]
    by_cases hm : ((p.getHopHostIds.filter (fun h => !(ids.contains h))).dedup).isEmpty = true
    · by_cases hc : p.validatePathContinuity = true
      · rw [if_pos hm, if_pos hc, ih]
        have hsub := (missing_isEmpty_iff ids p).mp hm
        constructor
        · intro hrest
          exact ⟨⟨hsub, hc⟩, hrest⟩
        · intro hall
          exact hall.2
      · rw [if_pos hm, if_neg hc]
        constructor
        · intro habs; cases habs
        · intro hall
          exact absurd hall.1.2 hc
    · rw [if_neg hm]
      constructor
      · intro habs; cases habs
      · intro hall
        exact absurd ((missing_isEmpty_iff ids p).mpr hall.1.1) hm

theorem validatePathsLoop_error_unknown (ids : List Nat) (l : List AttackPath)
    (pid : Nat) (missing : List Nat) :
    validatePathsLoop ids l = .error (.unknownHosts pid missing) →
    ∃ p ∈ l, p.id = pid ∧
      missing = (p.getHopHostIds.filter (fun h => !(ids.contains h))).dedup ∧
      missing ≠ [] := by
  induction l with
  | nil => intro habs; cases habs
  | cons p rest ih =>
    simp only [validatePathsLoop]
    by_cases hm : ((p.getHopHostIds.filter (fun h => !(ids.contains h))).dedup).isEmpty = true
    · by_cases hc : p.validatePathContinuity = true
      · rw [if_pos hm, if_pos hc]
        intro he
        rcases ih he with ⟨q, hq, hrest⟩
        exact ⟨q, List.mem_cons_of_mem _ hq, hrest⟩
      · rw [if_pos hm, if_neg hc]
        intro habs; cases habs
    · rw [if_neg hm]
      intro he
      rw [Except.error.injEq, TopologyValidationError.unknownHosts.injEq] at he
      refine ⟨p, List.mem_cons_self _ _, he.1, he.2.symm, ?_⟩
      rw [← he.2]
      intro habs
      rw [habs] at hm
      exact hm rfl

theorem validatePathsLoop_error_discontinuous (ids : List Nat)
    (l : List AttackPath) (pid : Nat) :
    validatePathsLoop ids l = .error (.discontinuousPath pid) →
    ∃ p ∈ l, p.id = pid ∧ p.validatePathContinuity = false := by
  induction l with
  | nil => intro habs; cases habs
  | cons p rest ih =>
    simp only [validatePathsLoop]
    by_cases hm : ((p.getHopHostIds.filter (fun h => !(ids.contains h))).dedup).isEmpty = true
    · by_cases hc : p.validatePathContinuity = true
      · rw [if_pos hm, if_pos hc]
        intro he
        rcases ih he with ⟨q, hq, hrest⟩
        exact ⟨q, List.mem_cons_of_mem _ hq, hrest⟩
      · rw [if_pos hm, if_neg hc]
        intro he
        rw [Except.error.injEq, TopologyValidationError.discontinuousPath.injEq] at he
        exact ⟨p, List.mem_cons_self _ _, he, Bool.eq_false_iff.mpr hc⟩
    · rw [if_neg hm]
      intro habs; cases habs

theorem validatePathsLoop_no_subnet_error (ids : List Nat) (l : List AttackPath)
    (errs : List String) :
    validatePathsLoop ids l ≠ .error (.subnetConnectivity errs) := by
  induction l with
  | nil => intro habs; cases habs
  | cons p rest ih =>
    simp only [validatePathsLoop]
    by_cases hm : ((p.getHopHostIds.filter (fun h => !(ids.contains h))).dedup).isEmpty = true
    · by_cases hc : p.validatePathContinuity = true
      · rw [if_pos hm, if_pos hc]
        exact ih
      · rw [if_pos hm, if_neg hc]
        intro habs; cases habs
    · rw [if_neg hm]
      intro habs; cases habs

/-- C7: topology construction-time validation accepts exactly the
topologies in which every attack path's hop hosts are known (topology
hosts plus the attacker host), every attack path is continuous, and every
subnet connection references existing subnets; every rejection names the
offending entity: an `unknownHosts` error carries the id of a path that
really references unknown hosts together with those hosts, a
`discontinuousPath` error carries the id of a path that really fails
continuity, and a `subnetConnectivity` error carries the non-empty list of
dangling-connection messages. -/
theorem claim_C7_validation_exactly_rejects_violations (t : NetworkTopology) :
    (t.validateTopology = .ok () ↔
      ((∀ p ∈ t.attack_paths,
          (∀ hid ∈ p.getHopHostIds, hid ∈ t.allKnownHostIds) ∧
          p.validatePathContinuity = true) ∧
        t.validateSubnetConnectivity = [])) ∧
    (∀ pid missing, t.validateTopology = .error (.unknownHosts pid missing) →
      ∃ p ∈ t.attack_paths, p.id = pid ∧ missing ≠ [] ∧
        ∀ hid ∈ missing, hid ∈ p.getHopHostIds ∧ hid ∉ t.allKnownHostIds) ∧
    (∀ pid, t.validateTopology = .error (.discontinuousPath pid) →
      ∃ p ∈ t.attack_paths, p.id = pid ∧ p.validatePathContinuity = false) ∧
    (∀ errs, t.validateTopology = .error (.subnetConnectivity errs) →
      errs = t.validateSubnetConnectivity ∧ errs ≠ []) := by
  refine ⟨?_, ?_, ?_, ?_⟩
  · unfold NetworkTopology.validateTopology
    cases hv : validatePathsLoop t.allKnownHostIds t.attack_paths with
    | error e =>
      constructor
      · intro habs; cases habs
      · intro ⟨hall, _⟩
        exact absurd hv (by rw [(validatePathsLoop_ok_iff _ _).mpr hall]; simp)
    | ok u =>
      cases u
      show (if t.validateSubnetConnectivity.isEmpty then Except.ok ()
        else Except.error (TopologyValidationError.subnetConnectivity
          t.validateSubnetConnectivity)) = .ok () ↔ _
      by_cases he : t.validateSubnetConnectivity.isEmpty = true
      · rw [if_pos he]
        rw [List.isEmpty_iff] at he
        rw [← validatePathsLoop_ok_iff t.allKnownHostIds t.attack_paths]
        simp [hv, he]
      · rw [if_neg he]
        rw [List.isEmpty_iff] at he
        constructor
        · intro habs; cases habs
        · intro ⟨_, hnil⟩; exact absurd hnil he
  · intro pid missing
    unfold NetworkTopology.validateTopology
    cases hv : validatePathsLoop t.allKnownHostIds t.attack_paths with
    | error e =>
      intro he
      simp only [Except.error.injEq] at he
      subst he
      rcases validatePathsLoop_error_unknown _ _ _ _ hv with ⟨p, hp, hpid, hmiss, hne⟩
      refine ⟨p, hp, hpid, hne, ?_⟩
      intro hid hin
      rw [hmiss, List.mem_dedup, List.mem_filter] at hin
      refine ⟨hin.1, ?_⟩
      have h2 := hin.2
      simp at h2
      exact h2
    | ok u =>
      cases u
      show (if t.validateSubnetConnectivity.isEmpty then Except.ok ()
        else Except.error (TopologyValidationError.subnetConnectivity
          t.validateSubnetConnectivity)) = _ → _
      by_cases he : t.validateSubnetConnectivity.isEmpty = true
      · rw [if_pos he]
        intro habs; cases habs
      · rw [if_neg he]
        intro habs
        rw [Except.error.injEq] at habs
        cases habs
  · intro pid
    unfold NetworkTopology.validateTopology
    cases hv : validatePathsLoop t.allKnownHostIds t.attack_paths with
    | error e =>
      intro he
      simp only [Except.error.injEq] at he
      subst he
      exact validatePathsLoop_error_discontinuous _ _ _ hv
    | ok u =>
      cases u
      show (if t.validateSubnetConnectivity.isEmpty then Except.ok ()
        else Except.error (TopologyValidationError.subnetConnectivity
          t.validateSubnetConnectivity)) = _ → _
      by_cases he : t.validateSubnetConnectivity.isEmpty = true
      · rw [if_pos he]
        intro habs; cases habs
      · rw [if_neg he]
        intro habs
        rw [Except.error.injEq] at habs
        cases habs
  · intro errs
    unfold NetworkTopology.validateTopology
    cases hv : validatePathsLoop t.allKnownHostIds t.attack_paths with
    | error e =>
      intro he
      simp only [Except.error.injEq] at he
      subst he
      exact absurd hv (validatePathsLoop_no_subnet_error _ _ _)
    | ok u =>
      cases u
      show (if t.validateSubnetConnectivity.isEmpty then Except.ok ()
        else Except.error (TopologyValidationError.subnetConnectivity
          t.validateSubnetConnectivity)) = _ → _
      by_cases he : t.validateSubnetConnectivity.isEmpty = true
      · rw [if_pos he]
        intro habs; cases habs
      · rw [if_neg he]
        intro habs
        rw [Except.error.injEq, TopologyValidationError.subnetConnectivity.injEq] at habs
        subst habs
        refine ⟨rfl, ?_⟩
        intro habs
        rw [habs] at he
        exact he rfl

/-- A topology with no paths and no connections, which validation accepts. -/
def emptyTopology : NetworkTopology :=
  { name := "empty", networks := [], subnet_connections := [], goals := [],
    attack_paths := [], attacker_host := none }

theorem claim_C7_validation_exactly_rejects_violations_witness :
    emptyTopology.validateTopology = .ok () :=
  (claim_C7_validation_exactly_rejects_violations emptyTopology).1.mpr
    ⟨by decide, by decide⟩

/-! ## Provisioning batcher (src/src/openstack/host_deployer.py)

`deploy_hosts` slices `self.topology.get_all_hosts()` into fixed-size
batches, `_deploy_host_batch` submits every creation without waiting and
then polls, and `_poll_instances_until_active` scans the pending map each
round: `ACTIVE` removes an instance, `ERROR` raises at once naming the
host and the fault, anything else stays pending; exhausting the overall
wait raises a timeout naming every still-pending host. The cloud is
modelled by a status oracle `env round instance_id`; instance ids are the
submission indices, and one poll round plus one sleep consumes one unit of
fuel (`max_wait / poll_interval = 600 / 5 = 120` rounds). -/

/-- Status and fault reported by `get_server` for one instance. -/
structure ServerView where
  status : String
  fault : String
deriving DecidableEq, Repr, Inhabited

/-- Structured form of the exceptions of `_poll_instances_until_active`. -/
inductive DeployError
  | instanceError (host_name : String) (fault : String)
  | timeoutError (host_names : List String)
deriving DecidableEq, Repr

/-- The `hosts[i : i + batch_size]` slicing loop of `deploy_hosts`.
(The source's `range(0, len(hosts), batch_size)` requires a positive step;
the claims use `batch_size = 10`.) -/
def chunkHosts (batch_size : Nat) : List Host → List (List Host)
  | [] => []
  | h :: t => (h :: t).take batch_size :: chunkHosts batch_size (t.drop (batch_size - 1))
  termination_by l => l.length
  decreasing_by
    simp only [List.length_cons]
    calc (t.drop (batch_size - 1)).length ≤ t.length := by
          rw [List.length_drop]; omega
      _ < t.length + 1 := by omega

/-- One scan over the pending instances (`for instance_id, (host, instance)
in pending_instances.items()`): `ACTIVE` entries are dropped, an `ERROR`
entry raises immediately, others remain pending. -/
def pollRound (env : Nat → Nat → ServerView) (round : Nat) :
    List (Host × Nat) → Except DeployError (List (Host × Nat))
  | [] => .ok []
  | (host, iid) :: rest =>
    if (env round iid).status == "ACTIVE" then pollRound env round rest
    else if (env round iid).status == "ERROR" then
      .error (.instanceError host.name (env round iid).fault)
    else
      match pollRound env round rest with
      | .error e => .error e
      | .ok remaining => .ok ((host, iid) :: remaining)

/-- The `while pending_instances and elapsed < max_wait` loop of
`_poll_instances_until_active`; running out of fuel with a non-empty
pending set raises the timeout naming every pending host. -/
def pollInstancesLoop (env : Nat → Nat → ServerView) :
    Nat → Nat → List (Host × Nat) → Except DeployError Unit
  | _, _, [] => .ok ()
  | 0, _, pending => .error (.timeoutError (pending.map (fun p => p.1.name)))
  | fuel + 1, round, pending =>
    match pollRound env round pending with
    | .error e => .error e
    | .ok remaining => pollInstancesLoop env fuel (round + 1) remaining

/-- Model of `_poll_instances_until_active` with its default
`poll_interval = 5` and `max_wait = 600`, i.e. 120 poll rounds. -/
def pollInstancesUntilActive (env : Nat → Nat → ServerView)
    (instances : List (Host × Nat)) : Except DeployError Unit :=
  pollInstancesLoop env 120 0 instances

/-- The per-batch part of `deploy_hosts`: submit every creation of the
batch (instance ids continue across batches in submission order), then
poll the batch until active; an exception aborts the whole call. -/
def deployBatches (env : Nat → Nat → ServerView) :
    Nat → List (List Host) → Except DeployError Unit
  | _, [] => .ok ()
  | ctr, batch :: rest =>
    match pollInstancesUntilActive env (batch.zip (List.range' ctr batch.length)) with
    | .error e => .error e
    | .ok _ => deployBatches env (ctr + batch.length) rest

/-- Model of `OpenstackHostDeployer.deploy_hosts` over the host list drawn
from `self.topology.get_all_hosts()`. -/
def deployHostsList (env : Nat → Nat → ServerView) (hosts : List Host)
    (batch_size : Nat) : Except DeployError Unit :=
  if hosts.isEmpty then .ok ()
  else deployBatches env 0 (chunkHosts batch_size hosts)

/-- Model of `OpenstackHostDeployer.deploy_hosts` as called on a deployer
constructed over a topology. -/
def OpenstackHostDeployer.deployHosts (env : Nat → Nat → ServerView)
    (t : NetworkTopology) (batch_size : Nat) : Except DeployError Unit :=
  deployHostsList env (t.getAllHosts false) batch_size

theorem chunkHosts_cons_eq (bs : Nat) (hbs : 1 ≤ bs) (l : List Host) (hl : l ≠ []) :
    chunkHosts bs l = l.take bs :: chunkHosts bs (l.drop bs) := by
  cases l with
  | nil => exact absurd rfl hl
  | cons h t =>
    rw [chunkHosts]
    cases bs with
    | zero => omega
    | succ n => rw [List.drop_succ_cons, Nat.succ_sub_one]

theorem chunkHosts_flatten (n : Nat) : ∀ (k : Nat) (l : List Host),
    l.length = k → (chunkHosts (n + 1) l).flatten = l := by
  intro k
  induction k using Nat.strong_induction_on with
  | _ k ih =>
    intro l hk
    cases l with
    | nil => simp [chunkHosts]
    | cons h t =>
      rw [chunkHosts_cons_eq (n + 1) (by omega) (h :: t) (by simp),
        List.flatten_cons]
      have hrec : (chunkHosts (n + 1) ((h :: t).drop (n + 1))).flatten
          = (h :: t).drop (n + 1) := by
        apply ih ((h :: t).drop (n + 1)).length _ _ rfl
        subst hk
        simp [List.length_drop]
        omega
      rw [hrec, List.take_append_drop]

theorem chunkHosts_sizes_23 (l : List Host) (hl : l.length = 23) :
    (chunkHosts 10 l).map List.length = [10, 10, 3] := by
  have h1 : chunkHosts 10 l = l.take 10 :: chunkHosts 10 (l.drop 10) :=
    chunkHosts_cons_eq 10 (by omega) l (by intro habs; rw [habs] at hl; simp at hl)
  have hd1 : (l.drop 10).length = 13 := by rw [List.length_drop, hl]
  have h2 : chunkHosts 10 (l.drop 10)
      = (l.drop 10).take 10 :: chunkHosts 10 ((l.drop 10).drop 10) :=
    chunkHosts_cons_eq 10 (by omega) _
      (by intro habs; rw [habs] at hd1; simp at hd1)
  have hd2 : ((l.drop 10).drop 10).length = 3 := by
    rw [List.length_drop, hd1]
  have h3 : chunkHosts 10 ((l.drop 10).drop 10)
      = ((l.drop 10).drop 10).take 10 :: chunkHosts 10 (((l.drop 10).drop 10).drop 10) :=
    chunkHosts_cons_eq 10 (by omega) _
      (by intro habs; rw [habs] at hd2; simp at hd2)
  have hd3 : ((l.drop 10).drop 10).drop 10 = [] := by
    rw [← List.length_eq_zero, List.length_drop, hd2]
  rw [h1, h2, h3, hd3]
  simp [chunkHosts, List.length_take, hl, hd1, hd2]

theorem pollRound_error_at (env : Nat → Nat → ServerView) (round : Nat) :
    ∀ (l : List Host) (start k : Nat) (h : Host),
      l[k]? = some h →
      (env round (start + k)).status = "ERROR" →
      (∀ j, j < l.length → j ≠ k → (env round (start + j)).status ≠ "ERROR") →
      pollRound env round (l.zip (List.range' start l.length)) =
        .error (.instanceError h.name (env round (start + k)).fault) := by
  intro l
  induction l with
  | nil =>
    intro start k h hk
    simp at hk
  | cons a t ih =>
    intro start k h hk herr hothers
    rw [List.length_cons, List.range'_succ, List.zip_cons_cons]
    cases k with
    | zero =>
      have ha : a = h := by simpa using hk
      have hs : (env round start).status = "ERROR" := by simpa using herr
      unfold pollRound
      rw [hs]
      subst ha
      simp
    | succ k2 =>
      have hk2 : t[k2]? = some h := by simpa using hk
      have herr2 : (env round (start + 1 + k2)).status = "ERROR" := by
        have harith : start + 1 + k2 = start + (k2 + 1) := by omega
        rw [harith]
        exact herr
      have hothers2 : ∀ j, j < t.length → j ≠ k2 →
          (env round (start + 1 + j)).status ≠ "ERROR" := by
        intro j hj hne
        have harith : start + 1 + j = start + (j + 1) := by omega
        rw [harith]
        apply hothers (j + 1)
        · rw [List.length_cons]
          omega
        · omega
      have hne0 : (env round start).status ≠ "ERROR" := by
        have h0 := hothers 0 (by rw [List.length_cons]; omega) (by omega)
        simpa using h0
      unfold pollRound
      by_cases hact : (env round start).status == "ACTIVE"
      · rw [if_pos hact]
        rw [ih (start + 1) k2 h hk2 herr2 hothers2]
        have harith : start + 1 + k2 = start + (k2 + 1) := by omega
        rw [harith]
      · rw [if_neg hact, if_neg (by simpa using hne0)]
        rw [ih (start + 1) k2 h hk2 herr2 hothers2]
        have harith : start + 1 + k2 = start + (k2 + 1) := by omega
        rw [harith]

theorem pollInstancesLoop_error_first_round (env : Nat → Nat → ServerView)
    (fuel round : Nat) (p : Host × Nat) (rest : List (Host × Nat))
    (e : DeployError) (hr : pollRound env round (p :: rest) = .error e) :
    pollInstancesLoop env (fuel + 1) round (p :: rest) = .error e := by
  show (match pollRound env round (p :: rest) with
    | .error e => Except.error e
    | .ok remaining => pollInstancesLoop env fuel (round + 1) remaining)
    = Except.error e
  rw [hr]

/-- C6: `deploy_hosts` with 23 topology hosts and `batch_size = 10` slices
them into batches of sizes 10, 10 and 3 in order (their concatenation is
the original host list); and if, at the first poll round of the first
batch, exactly one host's instance reports `ERROR`, the call raises
immediately (within that first round, under no constraint at all on what
any instance reports at later rounds, so no sibling is waited on) naming
that host and the reported fault. -/
theorem claim_C6_batches_and_fail_fast (hosts : List Host)
    (env : Nat → Nat → ServerView) (k : Nat) (h : Host) (f : String)
    (hlen : hosts.length = 23)
    (hk : k < 10)
    (hh : hosts[k]? = some h)
    (herr : (env 0 k).status = "ERROR")
    (hf : (env 0 k).fault = f)
    (hothers : ∀ j, j < 10 → j ≠ k → (env 0 j).status ≠ "ERROR") :
    ((chunkHosts 10 hosts).map List.length = [10, 10, 3] ∧
      (chunkHosts 10 hosts).flatten = hosts) ∧
    deployHostsList env hosts 10 = .error (.instanceError h.name f) := by
  have hsizes := chunkHosts_sizes_23 hosts hlen
  have hflat := chunkHosts_flatten 9 hosts.length hosts rfl
  refine ⟨⟨hsizes, hflat⟩, ?_⟩
  have hlt : (hosts.take 10).length = 10 := by
    rw [List.length_take, hlen]
    omega
  have htake : (hosts.take 10)[k]? = some h := by
    rw [List.getElem?_take, if_pos hk]
    exact hh
  have hperr : pollRound env 0
      ((hosts.take 10).zip (List.range' 0 (hosts.take 10).length))
      = .error (.instanceError h.name f) := by
    rw [← hf]
    have hmain := pollRound_error_at env 0 (hosts.take 10) 0 k h htake
      (by simpa using herr)
      (by
        intro j hj hne
        rw [Nat.zero_add]
        exact hothers j (by rw [hlt] at hj; exact hj) hne)
    simpa using hmain
  have hpoll : pollInstancesUntilActive env
      ((hosts.take 10).zip (List.range' 0 (hosts.take 10).length))
      = .error (.instanceError h.name f) := by
    unfold pollInstancesUntilActive
    cases hz : (hosts.take 10).zip (List.range' 0 (hosts.take 10).length) with
    | nil =>
      exfalso
      have hzl : ((hosts.take 10).zip
          (List.range' 0 (hosts.take 10).length)).length = 10 := by
        rw [List.length_zip, List.length_range', hlt, Nat.min_self]
      rw [hz] at hzl
      simp at hzl
    | cons p rest =>
      rw [hz] at hperr
      exact pollInstancesLoop_error_first_round env 119 0 p rest _ hperr
  unfold deployHostsList
  have hne : hosts.isEmpty = false := by
    rw [List.isEmpty_eq_false_iff_exists_mem]
    cases hcase : hosts with
    | nil => rw [hcase] at hlen; simp at hlen
    | cons a t => exact ⟨a, List.mem_cons_self a t⟩
  rw [if_neg (by rw [hne]; intro habs; cases habs)]
  rw [chunkHosts_cons_eq 10 (by omega) hosts
    (by intro habs; rw [habs] at hlen; simp at hlen)]
  show (match pollInstancesUntilActive env
      ((hosts.take 10).zip (List.range' 0 (hosts.take 10).length)) with
    | .error e => Except.error e
    | .ok _ => deployBatches env (0 + (hosts.take 10).length)
        (chunkHosts 10 (hosts.drop 10)))
    = Except.error (DeployError.instanceError h.name f)
  rw [hpoll]

/-- A sample host record for the C6 scenario. -/
def mkC6Host (i : Nat) : Host :=
  { id := i, name := "srv" ++ toString i, os_type := .ubuntu20, flavor := .tiny,
    ip_address := none, users := [], vulnerabilities := [],
    is_attacker := false, is_decoy := false }

/-- Twenty-three sample hosts. -/
def c6Hosts : List Host := (List.range 23).map mkC6Host

/-- A status oracle under which instance 7 reports `ERROR` with a fault
and every other instance reports `BUILD` forever. -/
def c6Env : Nat → Nat → ServerView := fun _ iid =>
  if iid == 7 then { status := "ERROR", fault := "no valid host was found" }
  else { status := "BUILD", fault := "" }

theorem claim_C6_batches_and_fail_fast_witness :
    deployHostsList c6Env c6Hosts 10
      = .error (.instanceError "srv7" "no valid host was found") :=
  (claim_C6_batches_and_fail_fast c6Hosts c6Env 7 (mkC6Host 7)
    "no valid host was found" (by decide) (by decide) (by decide) (by decide)
    (by decide)
    (by
      intro j hj hne
      show (c6Env 0 j).status ≠ "ERROR"
      unfold c6Env
      rw [if_neg (by simpa using hne)]
      decide)).2

/-! ## Snapshot manager (src/environment/environment.py)

`load_snapshot` looks up the image named `{host_name}_image` through the
cloud client's `get_image`, which — per the collaborator contract the
repository itself relies on in `load_all_snapshots` (`image = get_image(...);
if not image: raise ...`) — returns the image or `None` when no image of
that name exists. The `except AttributeError` clause around the lookup only
re-raises a client-internal failure and is not reachable in this model, so
the `Except` error component below stays unused; a missing image simply
makes the `if image:` guard false. -/

/-- A cloud image as seen through the client. -/
structure CloudImage where
  id : Nat
  name : String
deriving DecidableEq, Repr, Inhabited

/-- A live server as seen through the client. -/
structure CloudServerRef where
  id : Nat
  name : String
deriving DecidableEq, Repr, Inhabited

/-- One `rebuild_server(host.id, image.id, wait=wait, admin_pass=None)`
call issued against the cloud. -/
structure RebuildCall where
  server_id : Nat
  image_id : Nat
  wait : Bool
deriving DecidableEq, Repr, Inhabited

/-- Model of `conn.get_image(name)`: first image with the given name, or
`None` when absent. -/
def getImage (images : List CloudImage) (image_name : String) : Option CloudImage :=
  images.find? (fun i => i.name == image_name)

/-- Model of `Environment.load_snapshot(host, wait)`: the returned list
holds the rebuild calls issued (none when the named image is absent). -/
def loadSnapshot (images : List CloudImage) (host : CloudServerRef)
    (wait : Bool) : Except String (List RebuildCall) :=
  match getImage images (host.name ++ "_image") with
  | none => .ok []
  | some image => .ok [{ server_id := host.id, image_id := image.id, wait := wait }]

/-- C8: evaluated at the failing input — a host named `h1` against a cloud
that holds no images at all — `load_snapshot` raises nothing and rebuilds
nothing (it returns normally with no rebuild call issued), although the
claim says the call raises when no image named `{host_name}_image` exists;
when the image does exist, the host is indeed rebuilt in place from it. -/
theorem claim_C8_load_snapshot_missing_image_is_silent :
    getImage [] ("h1" ++ "_image") = none ∧
    loadSnapshot [] { id := 1, name := "h1" } false = .ok [] ∧
    loadSnapshot [{ id := 5, name := "h1_image" }] { id := 1, name := "h1" } true
      = .ok [{ server_id := 1, image_id := 5, wait := true }] := by
  refine ⟨rfl, rfl, ?_⟩
  rfl

/-! ## Attack graph builder (src/src/models/attack_graph.py, build_attack_graph)

`build_attack_graph` threads a `nodes_by_identity` map kept in lockstep
with `graph.nodes` (a node enters both exactly when created), so a single
insertion-ordered node list with first-match identity lookup models both.
`uuid4` is modelled by a fresh counter: the claims about the builder are
stated on identifier-erased projections, for which any injective supply of
fresh identifiers is equivalent. -/

/-- The builder's mutable state: the growing graph plus the fresh-id
counter. -/
structure BuildState where
  nodes : List AttackGraphNode
  edges : List AttackGraphEdge
  adjacency : List (Nat × List Nat)
  fresh : Nat
deriving Repr

/-- Model of `nodes_by_identity.get((host_id, user_id))`. -/
def findNodeByIdentity (nodes : List AttackGraphNode) (host_id user_id : Nat) :
    Option AttackGraphNode :=
  nodes.find? (fun n => n.host_id == host_id && n.user_id == user_id)

/-- Model of `_get_or_create_node`. -/
def getOrCreateNode (s : BuildState) (host_id user_id : Nat) :
    AttackGraphNode × BuildState :=
  match findNodeByIdentity s.nodes host_id user_id with
  | some n => (n, s)
  | none =>
    let n : AttackGraphNode := { id := s.fresh, host_id := host_id, user_id := user_id }
    (n, { s with nodes := s.nodes ++ [n], fresh := s.fresh + 1 })

/-- Model of `graph.adjacency.setdefault(current_node.id, []).append(edge.id)`. -/
def adjacencyAppend : List (Nat × List Nat) → Nat → Nat → List (Nat × List Nat)
  | [], key, edge_id => [(key, [edge_id])]
  | (k, vs) :: rest, key, edge_id =>
    if k == key then (k, vs ++ [edge_id]) :: rest
    else (k, vs) :: adjacencyAppend rest key edge_id

/-- One iteration of the `for step in path.steps` loop of
`build_attack_graph`: create or reuse the step's target node, append the
edge and its adjacency entry, and advance the current node. -/
def buildApplyStep (cur : AttackGraphNode) (s : BuildState) :
    AttackStep → AttackGraphNode × BuildState
  | .lateralMovement _ to_h _ to_u v =>
    let r := getOrCreateNode s to_h to_u
    let e : AttackGraphEdge :=
      { id := r.2.fresh, from_node_id := cur.id, to_node_id := r.1.id,
        is_lateral_movement := true, vulnerability := v }
    (r.1, { r.2 with
      edges := r.2.edges ++ [e],
      adjacency := adjacencyAppend r.2.adjacency cur.id e.id,
      fresh := r.2.fresh + 1 })
  | .privilegeEscalation h _ to_u v =>
    let r := getOrCreateNode s h to_u
    let e : AttackGraphEdge :=
      { id := r.2.fresh, from_node_id := cur.id, to_node_id := r.1.id,
        is_lateral_movement := false, vulnerability := v }
    (r.1, { r.2 with
      edges := r.2.edges ++ [e],
      adjacency := adjacencyAppend r.2.adjacency cur.id e.id,
      fresh := r.2.fresh + 1 })

/-- The step loop of `build_attack_graph` over one path's steps. -/
def buildSteps (cur : AttackGraphNode) (s : BuildState) :
    List AttackStep → AttackGraphNode × BuildState
  | [] => (cur, s)
  | st :: rest =>
    let r := buildApplyStep cur s st
    buildSteps r.1 r.2 rest

/-- One iteration of the `for path in paths` loop of `build_attack_graph`. -/
def buildPath (s : BuildState) (p : AttackPath) : BuildState :=
  let r := getOrCreateNode s p.start_host_id p.start_user_id
  (buildSteps r.1 r.2 p.steps).2

/-- Model of `build_attack_graph`. -/
def buildAttackGraph (paths : List AttackPath) : AttackGraph :=
  let final := paths.foldl buildPath
    { nodes := [], edges := [], adjacency := [], fresh := 0 }
  { nodes := final.nodes, edges := final.edges, adjacency := final.adjacency }

/-! ### Identifier-erased projections used to state isomorphism -/

/-- Lookup of a node by its generated identifier. -/
def lookupNodeById (nodes : List AttackGraphNode) (node_id : Nat) :
    Option AttackGraphNode :=
  nodes.find? (fun n => n.id == node_id)

/-- The (host, user) identity of a node identifier. -/
def nodeIdentityAt (nodes : List AttackGraphNode) (node_id : Nat) : Nat × Nat :=
  match lookupNodeById nodes node_id with
  | some n => (n.host_id, n.user_id)
  | none => (0, 0)

/-- An edge with generated identifiers erased: endpoint identities, the
lateral-movement flag and the vulnerability. -/
abbrev EdgeIdentData := (Nat × Nat) × (Nat × Nat) × Bool × Option Vulnerability

/-- Identifier-erased view of one edge. -/
def edgeIdentity (nodes : List AttackGraphNode) (e : AttackGraphEdge) :
    EdgeIdentData :=
  (nodeIdentityAt nodes e.from_node_id, nodeIdentityAt nodes e.to_node_id,
   e.is_lateral_movement, e.vulnerability)

/-- The (host, user) identity of a node record. -/
def nodeIdentOf (n : AttackGraphNode) : Nat × Nat :=
  (n.host_id, n.user_id)

/-- Node identities of a graph. -/
def AttackGraph.nodeIdentities (g : AttackGraph) : List (Nat × Nat) :=
  g.nodes.map nodeIdentOf

/-- Identifier-erased edges of a graph. -/
def AttackGraph.edgeIdentities (g : AttackGraph) : List EdgeIdentData :=
  g.edges.map (edgeIdentity g.nodes)

/-- Identity of the node a step's edge points to: a lateral movement uses
its to-identity, an escalation its (host, to-user) identity. -/
def stepTargetIdentity : AttackStep → Nat × Nat
  | .lateralMovement _ to_h _ to_u _ => (to_h, to_u)
  | .privilegeEscalation h _ to_u _ => (h, to_u)

/-- Whether the step contributes a lateral-movement edge. -/
def stepIsLateral : AttackStep → Bool
  | .lateralMovement _ _ _ _ _ => true
  | .privilegeEscalation _ _ _ _ => false

/-- The vulnerability the step's edge carries. -/
def stepVuln : AttackStep → Option Vulnerability
  | .lateralMovement _ _ _ _ v => v
  | .privilegeEscalation _ _ _ v => v

/-- Identifier-erased edges contributed by a step list walked from a
current identity. -/
def stepsEdgeIdents (cur : Nat × Nat) : List AttackStep → List EdgeIdentData
  | [] => []
  | st :: rest =>
    (cur, stepTargetIdentity st, stepIsLateral st, stepVuln st) ::
      stepsEdgeIdents (stepTargetIdentity st) rest

/-- Identifier-erased edges contributed by one path. -/
def pathEdgeIdents (p : AttackPath) : List EdgeIdentData :=
  stepsEdgeIdents (p.start_host_id, p.start_user_id) p.steps

/-- Node identities referenced by one path. -/
def pathNodeIdents (p : AttackPath) : List (Nat × Nat) :=
  (p.start_host_id, p.start_user_id) :: p.steps.map stepTargetIdentity

/-- Builder-state invariant: node identifiers are below the fresh counter
and pairwise distinct, and edge endpoints reference issued identifiers. -/
def StateOk (s : BuildState) : Prop :=
  (∀ n ∈ s.nodes, n.id < s.fresh) ∧
  (s.nodes.map AttackGraphNode.id).Nodup ∧
  (∀ e ∈ s.edges, e.from_node_id < s.fresh ∧ e.to_node_id < s.fresh)

/-- The node list only grows at the tail, with fresh identifiers. -/
def NodesExtend (s s2 : BuildState) : Prop :=
  s.fresh ≤ s2.fresh ∧
  ∃ t, s2.nodes = s.nodes ++ t ∧ ∀ n ∈ t, s.fresh ≤ n.id

theorem lookupNodeById_append_frozen (nodes t : List AttackGraphNode)
    (f i : Nat) (hi : i < f) (ht : ∀ n ∈ t, f ≤ n.id) :
    lookupNodeById (nodes ++ t) i = lookupNodeById nodes i := by
  unfold lookupNodeById
  rw [List.find?_append]
  cases hfind : nodes.find? (fun n => n.id == i) with
  | some n => rfl
  | none =>
    show (Option.none.or _) = none
    rw [Option.none_or]
    rw [List.find?_eq_none]
    intro n hn
    have := ht n hn
    simp only [beq_iff_eq]
    omega

theorem nodeIdentityAt_append_frozen (nodes t : List AttackGraphNode)
    (f i : Nat) (hi : i < f) (ht : ∀ n ∈ t, f ≤ n.id) :
    nodeIdentityAt (nodes ++ t) i = nodeIdentityAt nodes i := by
  unfold nodeIdentityAt
  rw [lookupNodeById_append_frozen nodes t f i hi ht]

theorem lookupNodeById_self (nodes : List AttackGraphNode)
    (hnd : (nodes.map AttackGraphNode.id).Nodup) (n : AttackGraphNode)
    (hn : n ∈ nodes) : lookupNodeById nodes n.id = some n := by
  induction nodes with
  | nil => cases hn
  | cons m rest ih =>
    rw [List.map_cons, List.nodup_cons] at hnd
    unfold lookupNodeById
    rcases List.mem_cons.mp hn with rfl | hmem
    · rw [List.find?_cons_of_pos]
      simp
    · by_cases hid : m.id = n.id
      · exfalso
        apply hnd.1
        rw [hid]
        exact List.mem_map_of_mem AttackGraphNode.id hmem
      · rw [List.find?_cons_of_neg]
        · exact ih hnd.2 hmem
        · simp [hid]

theorem edgeIdentity_frozen (s s2 : BuildState) (hok : StateOk s)
    (hext : NodesExtend s s2) (e : AttackGraphEdge)
    (hf : e.from_node_id < s.fresh) (ht : e.to_node_id < s.fresh) :
    edgeIdentity s2.nodes e = edgeIdentity s.nodes e := by
  rcases hext with ⟨hfresh, t, hnodes, hts⟩
  unfold edgeIdentity
  rw [hnodes, nodeIdentityAt_append_frozen s.nodes t s.fresh _ hf hts,
    nodeIdentityAt_append_frozen s.nodes t s.fresh _ ht hts]

theorem nodesExtend_refl (s : BuildState) : NodesExtend s s :=
  ⟨Nat.le_refl _, [], by simp, by simp⟩

theorem nodesExtend_trans (s1 s2 s3 : BuildState) (h12 : NodesExtend s1 s2)
    (h23 : NodesExtend s2 s3) : NodesExtend s1 s3 := by
  rcases h12 with ⟨hf12, t12, hn12, ht12⟩
  rcases h23 with ⟨hf23, t23, hn23, ht23⟩
  refine ⟨Nat.le_trans hf12 hf23, t12 ++ t23, ?_, ?_⟩
  · rw [hn23, hn12, List.append_assoc]
  · intro n hn
    rcases List.mem_append.mp hn with h | h
    · exact ht12 n h
    · exact Nat.le_trans hf12 (ht23 n h)

theorem getOrCreateNode_spec (s : BuildState) (host_id user_id : Nat)
    (hok : StateOk s) :
    StateOk (getOrCreateNode s host_id user_id).2 ∧
    NodesExtend s (getOrCreateNode s host_id user_id).2 ∧
    (getOrCreateNode s host_id user_id).1 ∈ (getOrCreateNode s host_id user_id).2.nodes ∧
    (getOrCreateNode s host_id user_id).1.host_id = host_id ∧
    (getOrCreateNode s host_id user_id).1.user_id = user_id ∧
    (getOrCreateNode s host_id user_id).2.edges = s.edges ∧
    (∀ x, x ∈ (getOrCreateNode s host_id user_id).2.nodes.map nodeIdentOf ↔
      x = (host_id, user_id) ∨ x ∈ s.nodes.map nodeIdentOf) := by
  cases hfind : findNodeByIdentity s.nodes host_id user_id with
  | some n =>
    have hr : getOrCreateNode s host_id user_id = (n, s) := by
      unfold getOrCreateNode
      rw [hfind]
    rw [hr]
    dsimp only
    have hmem : n ∈ s.nodes := List.mem_of_find?_eq_some hfind
    have hpred := List.find?_some hfind
    rw [Bool.and_eq_true, beq_iff_eq, beq_iff_eq] at hpred
    refine ⟨hok, nodesExtend_refl s, hmem, hpred.1, hpred.2, rfl, ?_⟩
    intro x
    constructor
    · intro hx
      exact Or.inr hx
    · intro hx
      rcases hx with rfl | hx
      · have hni : nodeIdentOf n = (host_id, user_id) := by
          unfold nodeIdentOf
          rw [hpred.1, hpred.2]
        rw [← hni]
        exact List.mem_map_of_mem nodeIdentOf hmem
      · exact hx
  | none =>
    have hr : getOrCreateNode s host_id user_id =
        (⟨s.fresh, host_id, user_id⟩,
         { s with nodes := s.nodes ++ [⟨s.fresh, host_id, user_id⟩],
                  fresh := s.fresh + 1 }) := by
      unfold getOrCreateNode
      rw [hfind]
    rw [hr]
    dsimp only
    rcases hok with ⟨hlt, hnd, hedges⟩
    refine ⟨⟨?_, ?_, ?_⟩,
      ⟨Nat.le_succ _, [⟨s.fresh, host_id, user_id⟩], rfl, ?_⟩, ?_, rfl, rfl, rfl, ?_⟩
    · intro n hn
      rcases List.mem_append.mp hn with h | h
      · exact Nat.lt_succ_of_lt (hlt n h)
      · rcases List.mem_singleton.mp h with rfl
        exact Nat.lt_succ_self _
    · rw [List.map_append, List.nodup_append]
      refine ⟨hnd, by simp, ?_⟩
      intro a ha
      simp only [List.map_cons, List.map_nil, List.mem_singleton]
      intro hb
      rw [hb] at ha
      rcases List.mem_map.mp ha with ⟨n, hn, hid⟩
      have := hlt n hn
      omega
    · intro e he
      have := hedges e he
      show e.from_node_id < s.fresh + 1 ∧ e.to_node_id < s.fresh + 1
      omega
    · intro n hn
      rcases List.mem_singleton.mp hn with rfl
      exact Nat.le_refl _
    · exact List.mem_append.mpr (Or.inr (List.mem_singleton.mpr rfl))
    · intro x
      rw [List.map_append, List.mem_append]
      constructor
      · intro hx
        rcases hx with hx | hx
        · exact Or.inr hx
        · simp only [List.map_cons, List.map_nil, List.mem_singleton] at hx
          exact Or.inl (by rw [hx]; rfl)
      · intro hx
        rcases hx with rfl | hx
        · exact Or.inr (by simp [nodeIdentOf])
        · exact Or.inl hx

theorem buildStepAux_spec (cur : AttackGraphNode) (s : BuildState) (th tu : Nat)
    (flag : Bool) (v : Option Vulnerability) (hok : StateOk s) (hcur : cur ∈ s.nodes)
    (n2 : AttackGraphNode) (s2 : BuildState)
    (hn2 : n2 = (getOrCreateNode s th tu).1)
    (hs2 : s2 = { (getOrCreateNode s th tu).2 with
      edges := (getOrCreateNode s th tu).2.edges ++
        [{ id := (getOrCreateNode s th tu).2.fresh, from_node_id := cur.id,
           to_node_id := (getOrCreateNode s th tu).1.id,
           is_lateral_movement := flag, vulnerability := v }],
      adjacency := adjacencyAppend (getOrCreateNode s th tu).2.adjacency cur.id
        (getOrCreateNode s th tu).2.fresh,
      fresh := (getOrCreateNode s th tu).2.fresh + 1 }) :
    StateOk s2 ∧ NodesExtend s s2 ∧ n2 ∈ s2.nodes ∧
    nodeIdentOf n2 = (th, tu) ∧
    (∃ e, s2.edges = s.edges ++ [e] ∧ e.from_node_id = cur.id ∧
      e.to_node_id = n2.id ∧ e.is_lateral_movement = flag ∧
      e.vulnerability = v) ∧
    (∀ x, x ∈ s2.nodes.map nodeIdentOf ↔
      x = (th, tu) ∨ x ∈ s.nodes.map nodeIdentOf) := by
  obtain ⟨hok1, hext1, hmem1, hhost1, huser1, hedges1, hidents1⟩ :=
    getOrCreateNode_spec s th tu hok
  have hfr : s.fresh ≤ (getOrCreateNode s th tu).2.fresh := hext1.1
  have hcurlt : cur.id < s.fresh := hok.1 cur hcur
  have hn2lt : n2.id < (getOrCreateNode s th tu).2.fresh := by
    rw [hn2]
    exact hok1.1 _ hmem1
  subst hs2
  refine ⟨⟨?_, ?_, ?_⟩, ⟨?_, ?_⟩, ?_, ?_, ?_, ?_⟩
  · intro n hn
    dsimp only at hn
    exact Nat.lt_succ_of_lt (hok1.1 n hn)
  · exact hok1.2.1
  · intro e he
    dsimp only at he
    rcases List.mem_append.mp he with h | h
    · have h2 := hok1.2.2 e h
      show e.from_node_id < (getOrCreateNode s th tu).2.fresh + 1 ∧
        e.to_node_id < (getOrCreateNode s th tu).2.fresh + 1
      omega
    · rcases List.mem_singleton.mp h with rfl
      show cur.id < (getOrCreateNode s th tu).2.fresh + 1 ∧
        (getOrCreateNode s th tu).1.id < (getOrCreateNode s th tu).2.fresh + 1
      have := hok1.1 _ hmem1
      omega
  · show s.fresh ≤ (getOrCreateNode s th tu).2.fresh + 1
    omega
  · rcases hext1.2 with ⟨t, hnodes, hts⟩
    exact ⟨t, hnodes, hts⟩
  · rw [hn2]
    exact hmem1
  · rw [hn2]
    unfold nodeIdentOf
    rw [hhost1, huser1]
  · refine Exists.intro
      { id := (getOrCreateNode s th tu).2.fresh, from_node_id := cur.id,
        to_node_id := (getOrCreateNode s th tu).1.id,
        is_lateral_movement := flag, vulnerability := v } ?_
    refine ⟨?_, rfl, ?_, rfl, rfl⟩
    · show (getOrCreateNode s th tu).2.edges ++ _ = s.edges ++ _
      rw [hedges1]
    · rw [hn2]
  · intro x
    show x ∈ List.map nodeIdentOf (getOrCreateNode s th tu).2.nodes ↔
      x = (th, tu) ∨ x ∈ List.map nodeIdentOf s.nodes
    exact hidents1 x

theorem buildApplyStep_spec (cur : AttackGraphNode) (s : BuildState)
    (st : AttackStep) (hok : StateOk s) (hcur : cur ∈ s.nodes) :
    StateOk (buildApplyStep cur s st).2 ∧
    NodesExtend s (buildApplyStep cur s st).2 ∧
    (buildApplyStep cur s st).1 ∈ (buildApplyStep cur s st).2.nodes ∧
    nodeIdentOf (buildApplyStep cur s st).1 = stepTargetIdentity st ∧
    (∃ e, (buildApplyStep cur s st).2.edges = s.edges ++ [e] ∧
      e.from_node_id = cur.id ∧ e.to_node_id = (buildApplyStep cur s st).1.id ∧
      e.is_lateral_movement = stepIsLateral st ∧ e.vulnerability = stepVuln st) ∧
    (∀ x, x ∈ (buildApplyStep cur s st).2.nodes.map nodeIdentOf ↔
      x = stepTargetIdentity st ∨ x ∈ s.nodes.map nodeIdentOf) := by
  cases st with
  | lateralMovement fh th fu tu v =>
    exact buildStepAux_spec cur s th tu true v hok hcur _ _ rfl rfl
  | privilegeEscalation h fu tu v =>
    exact buildStepAux_spec cur s h tu false v hok hcur _ _ rfl rfl

theorem buildSteps_spec : ∀ (steps : List AttackStep) (cur : AttackGraphNode)
    (s : BuildState), StateOk s → cur ∈ s.nodes →
    StateOk (buildSteps cur s steps).2 ∧
    NodesExtend s (buildSteps cur s steps).2 ∧
    (buildSteps cur s steps).1 ∈ (buildSteps cur s steps).2.nodes ∧
    (buildSteps cur s steps).2.edges.map
        (edgeIdentity (buildSteps cur s steps).2.nodes)
      = s.edges.map (edgeIdentity s.nodes)
        ++ stepsEdgeIdents (nodeIdentOf cur) steps ∧
    (∀ x, x ∈ (buildSteps cur s steps).2.nodes.map nodeIdentOf ↔
      x ∈ s.nodes.map nodeIdentOf ∨ x ∈ steps.map stepTargetIdentity) := by
  intro steps
  induction steps with
  | nil =>
    intro cur s hok hcur
    exact ⟨hok, nodesExtend_refl s, hcur, by simp [stepsEdgeIdents, buildSteps],
      by simp [buildSteps]⟩
  | cons st rest ih =>
    intro cur s hok hcur
    obtain ⟨hok1, hext1, hmem1, hident1, hedge, hidents1⟩ :=
      buildApplyStep_spec cur s st hok hcur
    rcases hsplit : buildApplyStep cur s st with ⟨next, s1⟩
    rw [hsplit] at hok1 hext1 hmem1 hident1 hedge hidents1
    dsimp only at hok1 hext1 hmem1 hident1 hedge hidents1
    rcases hedge with ⟨e0, hedges0, hef, het, heflag, hevuln⟩
    have hbs : buildSteps cur s (st :: rest) = buildSteps next s1 rest := by
      show (let r := buildApplyStep cur s st; buildSteps r.1 r.2 rest) = _
      rw [hsplit]
    rw [hbs]
    obtain ⟨hok2, hext2, hmem2, hproj2, hidents2⟩ := ih next s1 hok1 hmem1
    have hcur1 : cur ∈ s1.nodes := by
      rcases hext1.2 with ⟨t, hnodes, _⟩
      rw [hnodes]
      exact List.mem_append.mpr (Or.inl hcur)
    have hlookup_cur : nodeIdentityAt s1.nodes cur.id = nodeIdentOf cur := by
      unfold nodeIdentityAt
      rw [lookupNodeById_self s1.nodes hok1.2.1 cur hcur1]
      rfl
    have hlookup_next : nodeIdentityAt s1.nodes next.id = stepTargetIdentity st := by
      unfold nodeIdentityAt
      rw [lookupNodeById_self s1.nodes hok1.2.1 next hmem1]
      exact hident1
    have hedge0ident : edgeIdentity s1.nodes e0
        = (nodeIdentOf cur, stepTargetIdentity st, stepIsLateral st, stepVuln st) := by
      unfold edgeIdentity
      rw [hef, het, hlookup_cur, hlookup_next, heflag, hevuln]
    have hmapfrozen : s.edges.map (edgeIdentity s1.nodes)
        = s.edges.map (edgeIdentity s.nodes) := by
      apply List.map_congr_left
      intro e he
      exact edgeIdentity_frozen s s1 hok hext1 e (hok.2.2 e he).1 (hok.2.2 e he).2
    refine ⟨hok2, nodesExtend_trans s s1 _ hext1 hext2, hmem2, ?_, ?_⟩
    · rw [hproj2, hedges0, List.map_append, hmapfrozen, hident1]
      show _ ++ [edgeIdentity s1.nodes e0] ++ _ = _
      rw [hedge0ident, stepsEdgeIdents, List.append_assoc]
      rfl
    · intro x
      rw [hidents2 x, hidents1 x, List.map_cons, List.mem_cons]
      tauto

theorem buildPath_spec (s : BuildState) (p : AttackPath) (hok : StateOk s) :
    StateOk (buildPath s p) ∧
    NodesExtend s (buildPath s p) ∧
    (buildPath s p).edges.map (edgeIdentity (buildPath s p).nodes)
      = s.edges.map (edgeIdentity s.nodes) ++ pathEdgeIdents p ∧
    (∀ x, x ∈ (buildPath s p).nodes.map nodeIdentOf ↔
      x ∈ s.nodes.map nodeIdentOf ∨ x ∈ pathNodeIdents p) := by
  obtain ⟨hok1, hext1, hmem1, hhost1, huser1, hedges1, hidents1⟩ :=
    getOrCreateNode_spec s p.start_host_id p.start_user_id hok
  rcases hsplit : getOrCreateNode s p.start_host_id p.start_user_id with ⟨start, s1⟩
  rw [hsplit] at hok1 hext1 hmem1 hhost1 huser1 hedges1 hidents1
  dsimp only at hok1 hext1 hmem1 hhost1 huser1 hedges1 hidents1
  have hbp : buildPath s p = (buildSteps start s1 p.steps).2 := by
    show (let r := getOrCreateNode s p.start_host_id p.start_user_id;
      (buildSteps r.1 r.2 p.steps).2) = _
    rw [hsplit]
  rw [hbp]
  obtain ⟨hok2, hext2, hmem2, hproj2, hidents2⟩ :=
    buildSteps_spec p.steps start s1 hok1 hmem1
  have hstartident : nodeIdentOf start = (p.start_host_id, p.start_user_id) := by
    unfold nodeIdentOf
    rw [hhost1, huser1]
  have hmapfrozen : s.edges.map (edgeIdentity s1.nodes)
      = s.edges.map (edgeIdentity s.nodes) := by
    apply List.map_congr_left
    intro e he
    exact edgeIdentity_frozen s s1 hok hext1 e (hok.2.2 e he).1 (hok.2.2 e he).2
  refine ⟨hok2, nodesExtend_trans s s1 _ hext1 hext2, ?_, ?_⟩
  · rw [hproj2, hedges1, hstartident, hmapfrozen]
    rfl
  · intro x
    rw [hidents2 x, hidents1 x]
    unfold pathNodeIdents
    rw [List.mem_cons]
    tauto

theorem buildFold_spec : ∀ (paths : List AttackPath) (s : BuildState),
    StateOk s →
    StateOk (paths.foldl buildPath s) ∧
    (paths.foldl buildPath s).edges.map
        (edgeIdentity (paths.foldl buildPath s).nodes)
      = s.edges.map (edgeIdentity s.nodes) ++ paths.flatMap pathEdgeIdents ∧
    (∀ x, x ∈ (paths.foldl buildPath s).nodes.map nodeIdentOf ↔
      x ∈ s.nodes.map nodeIdentOf ∨ x ∈ paths.flatMap pathNodeIdents) := by
  intro paths
  induction paths with
  | nil =>
    intro s hok
    exact ⟨hok, by simp, by simp⟩
  | cons p rest ih =>
    intro s hok
    obtain ⟨hok1, hext1, hproj1, hidents1⟩ := buildPath_spec s p hok
    obtain ⟨hok2, hproj2, hidents2⟩ := ih (buildPath s p) hok1
    rw [List.foldl_cons]
    refine ⟨hok2, ?_, ?_⟩
    · rw [hproj2, hproj1, List.flatMap_cons, List.append_assoc]
    · intro x
      rw [hidents2 x, hidents1 x, List.flatMap_cons, List.mem_append]
      tauto

theorem buildAttackGraph_edgeIdents (paths : List AttackPath) :
    (buildAttackGraph paths).edgeIdentities = paths.flatMap pathEdgeIdents := by
  have hok0 : StateOk { nodes := [], edges := [], adjacency := [], fresh := 0 } :=
    ⟨by simp, by simp, by simp⟩
  obtain ⟨_, hproj, _⟩ := buildFold_spec paths _ hok0
  unfold buildAttackGraph AttackGraph.edgeIdentities
  simpa using hproj

theorem buildAttackGraph_nodeIdents (paths : List AttackPath) (x : Nat × Nat) :
    x ∈ (buildAttackGraph paths).nodeIdentities ↔
      x ∈ paths.flatMap pathNodeIdents := by
  have hok0 : StateOk { nodes := [], edges := [], adjacency := [], fresh := 0 } :=
    ⟨by simp, by simp, by simp⟩
  obtain ⟨_, _, hidents⟩ := buildFold_spec paths _ hok0
  unfold buildAttackGraph AttackGraph.nodeIdentities
  have := hidents x
  simpa using this

/-- C3: `build_attack_graph` is path-order-independent. For any
permutation of the input path list, the two graphs are isomorphic up to
relabeling of the generated identifiers: they have the same set of
(host, user) node identities, and the same multiset of identifier-erased
edges (endpoint identities, lateral-movement flag, vulnerability). -/
theorem claim_C3_build_order_independent (paths1 paths2 : List AttackPath)
    (hperm : paths1.Perm paths2) :
    (∀ x, x ∈ (buildAttackGraph paths1).nodeIdentities ↔
      x ∈ (buildAttackGraph paths2).nodeIdentities) ∧
    (buildAttackGraph paths1).edgeIdentities.Perm
      (buildAttackGraph paths2).edgeIdentities := by
  constructor
  · intro x
    rw [buildAttackGraph_nodeIdents paths1 x, buildAttackGraph_nodeIdents paths2 x]
    constructor
    · intro hx
      rcases List.mem_flatMap.mp hx with ⟨p, hp, hxp⟩
      exact List.mem_flatMap.mpr ⟨p, hperm.mem_iff.mp hp, hxp⟩
    · intro hx
      rcases List.mem_flatMap.mp hx with ⟨p, hp, hxp⟩
      exact List.mem_flatMap.mpr ⟨p, hperm.mem_iff.mpr hp, hxp⟩
  · rw [buildAttackGraph_edgeIdents paths1, buildAttackGraph_edgeIdents paths2]
    exact hperm.flatMap_right pathEdgeIdents

/-- Two sample paths sharing the target identity (2, 20). -/
def c3PathA : AttackPath :=
  { id := 90, start_host_id := 1, start_user_id := 10, target_host_id := 2,
    target_user_id := 20, steps := [.lateralMovement 1 2 10 20 none] }

/-- Second sample path for the C3 witness. -/
def c3PathB : AttackPath :=
  { id := 91, start_host_id := 3, start_user_id := 30, target_host_id := 2,
    target_user_id := 20, steps := [.lateralMovement 3 2 30 20 (some strutsVuln)] }

theorem claim_C3_build_order_independent_witness :
    List.Perm [c3PathA, c3PathB] [c3PathB, c3PathA] ∧
    (buildAttackGraph [c3PathA, c3PathB]).edgeIdentities.Perm
      (buildAttackGraph [c3PathB, c3PathA]).edgeIdentities :=
  ⟨by decide,
   (claim_C3_build_order_independent [c3PathA, c3PathB] [c3PathB, c3PathA]
     (by decide)).2⟩

/-! ## Attack path generator (src/src/topology_generator/attack_path_generator.py)

The generator draws from Python's seeded global `random`; randomness is
modelled by an explicit `Rng` state (the stream of draws a fixed seed
determines) threaded exactly where the source calls `random.choice`.
`AttackPath.id` defaults to `uuid4()` at construction; that draw comes
from process entropy, not from the seeded generator, and is modelled by a
separate identifier supply so that the claims can distinguish the two.
`random.choice` on an empty sequence raises `IndexError` in Python; the
model totalises it with a default that no theorem's hypotheses reach. -/

/-- Deterministic randomness state: the draw stream fixed by the seed. -/
structure Rng where
  stream : List Nat
deriving DecidableEq, Repr, Inhabited

/-- One draw. -/
def Rng.next : Rng → Nat × Rng
  | ⟨[]⟩ => (0, ⟨[]⟩)
  | ⟨x :: rest⟩ => (x, ⟨rest⟩)

/-- Model of `random.choice(seq)`. -/
def randomChoice {α : Type} [Inhabited α] (rng : Rng) (l : List α) : α × Rng :=
  (l.getD (rng.next.1 % l.length) default, rng.next.2)

/-- Model of `AttackPathGenerator._get_external_subnet` (first subnet
flagged external). -/
def getExternalSubnet (t : NetworkTopology) : Option Subnet :=
  t.getAllSubnets.find? (fun s => s.external)

/-- Model of `AttackPathGenerator._get_non_root_user` (first user not
named root). -/
def getNonRootUser (host : Host) : Option User :=
  host.users.find? (fun u => u.username != "root")

/-- Model of `AttackPathGenerator._resolve_goal_target_user`. -/
def resolveGoalTargetUser (t : NetworkTopology) (goal : GoalU)
    (target_host : Host) : Except String User :=
  match goal with
  | .jsonDataExfiltration _ _ _ _ _ host_user =>
    match target_host.getUserByUsername host_user with
    | some u => .ok u
    | none => target_host.getRootUser
  | _ => target_host.getRootUser

/-- The `self._get_non_root_user(host) or host.get_root_user()` idiom. -/
def nonRootOrRootUser (host : Host) : Except String User :=
  match getNonRootUser host with
  | some u => .ok u
  | none => host.getRootUser

/-- The `for i in range(1, len(subnet_path))` pivot loop of
`generate_paths_for_topology`, applied to the tail of the subnet path. -/
def walkSubnets (t : NetworkTopology) : List String → List AttackStep → Host →
    User → Rng → Except String (List AttackStep × Host × User × Rng)
  | [], steps, current_host, current_user, rng =>
    .ok (steps, current_host, current_user, rng)
  | next_subnet_name :: rest, steps, current_host, current_user, rng =>
    match t.getSubnetByName next_subnet_name with
    | none => walkSubnets t rest steps current_host current_user rng
    | some next_subnet =>
      if next_subnet.hosts.isEmpty then
        walkSubnets t rest steps current_host current_user rng
      else
        let rc := randomChoice rng next_subnet.hosts
        match nonRootOrRootUser rc.1 with
        | .error e => .error e
        | .ok next_user =>
          walkSubnets t rest
            (steps ++ [.lateralMovement current_host.id rc.1.id current_user.id
              next_user.id none])
            rc.1 next_user rc.2

/-- An `AttackPath` before its `uuid4` identifier is attached. -/
structure PathCore where
  start_host_id : Nat
  start_user_id : Nat
  target_host_id : Nat
  target_user_id : Nat
  steps : List AttackStep
deriving DecidableEq, Repr

/-- Attach the freshly drawn identifier, as the `AttackPath(...)`
construction at the end of the goal loop does. -/
def pathOfCore (core : PathCore) (path_id : Nat) : AttackPath :=
  { id := path_id, start_host_id := core.start_host_id,
    start_user_id := core.start_user_id,
    target_host_id := core.target_host_id,
    target_user_id := core.target_user_id, steps := core.steps }

/-- The final-hop block of the goal loop: if the pivot after the subnet
walk is not the target host, one more lateral movement goes straight to
the target host, preferring a non-root user. -/
def finalHopStage (target_host : Host) (steps2 : List AttackStep)
    (current_host2 : Host) (current_user2 : User) :
    Except String (List AttackStep × Host × User) :=
  if current_host2.id != target_host.id then
    match nonRootOrRootUser target_host with
    | .error e => .error e
    | .ok next_user =>
      .ok (steps2 ++ [.lateralMovement current_host2.id target_host.id
            current_user2.id next_user.id none],
          target_host, next_user)
  else .ok (steps2, current_host2, current_user2)

/-- The `if not steps:` fallback of the goal loop. It is unreachable in
the source (the first lateral-movement step is appended unconditionally,
so `steps` is never empty); it is embedded for fidelity all the same. -/
def emptyStepsFallback (target_host : Host) (target_user : User)
    (current_user3 : User) (steps4 : List AttackStep) :
    Except String (List AttackStep) :=
  if steps4.isEmpty then
    match target_host.getRootUser with
    | .error e => .error e
    | .ok root_user =>
      let st5 : List AttackStep := if current_user3.id != root_user.id then
          [.privilegeEscalation target_host.id current_user3.id root_user.id none]
        else []
      let cu5 := if current_user3.id != root_user.id then root_user
        else current_user3
      .ok (if cu5.id != target_user.id then
          st5 ++ [.privilegeEscalation target_host.id cu5.id target_user.id none]
        else st5)
  else .ok steps4

/-- Everything after the subnet walk: the final hop, the trailing
privilege escalation when the acting user differs from the target user,
and the (unreachable) empty-steps fallback. -/
def afterWalkStage (target_host : Host) (target_user : User)
    (steps2 : List AttackStep) (current_host2 : Host) (current_user2 : User) :
    Except String (List AttackStep) :=
  match finalHopStage target_host steps2 current_host2 current_user2 with
  | .error e => .error e
  | .ok (steps3, _, current_user3) =>
    emptyStepsFallback target_host target_user current_user3
      (if current_user3.id != target_user.id then
          steps3 ++ [.privilegeEscalation target_host.id current_user3.id
            target_user.id none]
        else steps3)

/-- The body of the `for goal in topology.goals` loop of
`generate_paths_for_topology`, up to the identifier-free path record. -/
def generatePathCore (t : NetworkTopology) (attacker_host : Host)
    (attacker_user : User) (external_subnet : Subnet) (goal : GoalU)
    (rng : Rng) : Except String (PathCore × Rng) :=
  match t.getHostById goal.targetHostId false with
  | none => .error "Target host not found"
  | some target_host =>
    match resolveGoalTargetUser t goal target_host with
    | .error e => .error e
    | .ok target_user =>
      let r1 := randomChoice rng external_subnet.hosts
      let r2 := randomChoice r1.2 r1.1.users
      let steps : List AttackStep :=
        [.lateralMovement attacker_host.id r1.1.id attacker_user.id r2.1.id none]
      let from_subnet := t.getSubnetForHost r1.1
      let to_subnet := t.getSubnetForHost target_host
      let subnet_path : Option (List String) :=
        match from_subnet, to_subnet with
        | some fs, some ts2 => t.findSubnetPath fs.name ts2.name
        | _, _ => none
      let subnet_path2 : List String :=
        match subnet_path with
        | some sp => sp
        | none =>
          match from_subnet with
          | some fs => [fs.name]
          | none => []
      match walkSubnets t (subnet_path2.drop 1) steps r1.1 r2.1 r2.2 with
      | .error e => .error e
      | .ok (steps2, current_host2, current_user2, rng3) =>
        match afterWalkStage target_host target_user steps2 current_host2
            current_user2 with
        | .error e => .error e
        | .ok steps5 =>
          .ok ({ start_host_id := attacker_host.id,
                 start_user_id := attacker_user.id,
                 target_host_id := target_host.id,
                 target_user_id := target_user.id,
                 steps := steps5 }, rng3)

/-- One goal's path with its fresh identifier attached. -/
def generatePathForGoal (t : NetworkTopology) (attacker_host : Host)
    (attacker_user : User) (external_subnet : Subnet) (goal : GoalU)
    (rng : Rng) (path_id : Nat) : Except String (AttackPath × Rng) :=
  match generatePathCore t attacker_host attacker_user external_subnet goal rng with
  | .error e => .error e
  | .ok (core, rng2) => .ok (pathOfCore core path_id, rng2)

/-- The `for goal in topology.goals` loop; `uuid ctr` supplies the
identifier of the `ctr`-th constructed path. -/
def generatePathsLoop (t : NetworkTopology) (attacker_host : Host)
    (attacker_user : User) (external_subnet : Subnet) :
    List GoalU → Rng → Nat → (Nat → Nat) → Except String (List AttackPath)
  | [], _, _, _ => .ok []
  | goal :: rest, rng, ctr, uuid =>
    match generatePathForGoal t attacker_host attacker_user external_subnet
        goal rng (uuid ctr) with
    | .error e => .error e
    | .ok (path, rng2) =>
      match generatePathsLoop t attacker_host attacker_user external_subnet
          rest rng2 (ctr + 1) uuid with
      | .error e => .error e
      | .ok paths => .ok (path :: paths)

/-- Model of `AttackPathGenerator.generate_paths_for_topology`. -/
def generatePathsForTopology (t : NetworkTopology) (rng : Rng)
    (uuid : Nat → Nat) : Except String (List AttackPath) :=
  match getExternalSubnet t with
  | none => .ok []
  | some external_subnet =>
    if external_subnet.hosts.isEmpty then .ok []
    else
      match t.attacker_host with
      | none => .error "Attacker host not found"
      | some attacker_host =>
        match attacker_host.getRootUser with
        | .error e => .error e
        | .ok attacker_user =>
          generatePathsLoop t attacker_host attacker_user external_subnet
            t.goals rng 0 uuid

/-- Everything of a generated path except its freshly drawn identifier. -/
def pathData (p : AttackPath) : Nat × Nat × Nat × Nat × List AttackStep :=
  (p.start_host_id, p.start_user_id, p.target_host_id, p.target_user_id, p.steps)

/-- Identifier-erased view of a whole generator run. -/
def runData (r : Except String (List AttackPath)) :
    Except String (List (Nat × Nat × Nat × Nat × List AttackStep)) :=
  match r with
  | .error e => .error e
  | .ok l => .ok (l.map pathData)

theorem generatePathsLoop_uuid_irrelevant (t : NetworkTopology)
    (attacker_host : Host) (attacker_user : User) (external_subnet : Subnet) :
    ∀ (goals : List GoalU) (rng : Rng) (ctr : Nat) (u1 u2 : Nat → Nat),
      runData (generatePathsLoop t attacker_host attacker_user external_subnet
          goals rng ctr u1)
        = runData (generatePathsLoop t attacker_host attacker_user
            external_subnet goals rng ctr u2) := by
  intro goals
  induction goals with
  | nil => intro rng ctr u1 u2; rfl
  | cons goal rest ih =>
    intro rng ctr u1 u2
    unfold generatePathsLoop generatePathForGoal
    cases hc : generatePathCore t attacker_host attacker_user external_subnet
        goal rng with
    | error e => rfl
    | ok cr =>
      obtain ⟨core, rng2⟩ := cr
      dsimp only
      have hrec := ih rng2 (ctr + 1) u1 u2
      cases hr1 : generatePathsLoop t attacker_host attacker_user
          external_subnet rest rng2 (ctr + 1) u1 with
      | error e1 =>
        cases hr2 : generatePathsLoop t attacker_host attacker_user
            external_subnet rest rng2 (ctr + 1) u2 with
        | error e2 =>
          rw [hr1, hr2] at hrec
          unfold runData at hrec
          rw [Except.error.injEq] at hrec
          rw [hrec]
        | ok p2 =>
          rw [hr1, hr2] at hrec
          unfold runData at hrec
          cases hrec
      | ok p1 =>
        cases hr2 : generatePathsLoop t attacker_host attacker_user
            external_subnet rest rng2 (ctr + 1) u2 with
        | error e2 =>
          rw [hr1, hr2] at hrec
          unfold runData at hrec
          cases hrec
        | ok p2 =>
          rw [hr1, hr2] at hrec
          unfold runData at hrec
          rw [Except.ok.injEq] at hrec
          unfold runData
          rw [Except.ok.injEq, List.map_cons, List.map_cons, hrec]
          rfl

/-- C4: the generator is deterministic for a fixed seed. With the seeded
randomness made explicit, a run is a pure function of (topology, seed), so
two runs on the same seed and topology agree on every generated path's
start and target identities and its full step list in order; the only
entropy outside the seed, the `uuid4` path identifiers (modelled by the
`uuid` supplies), provably never influences that data. -/
theorem claim_C4_generator_deterministic (t : NetworkTopology) (rng : Rng)
    (u1 u2 : Nat → Nat) :
    runData (generatePathsForTopology t rng u1)
      = runData (generatePathsForTopology t rng u2) := by
  unfold generatePathsForTopology
  cases hext : getExternalSubnet t with
  | none => rfl
  | some external_subnet =>
    dsimp only
    by_cases hempty : external_subnet.hosts.isEmpty = true
    · simp only [if_pos hempty]
    · simp only [if_neg hempty]
      cases t.attacker_host with
      | none => rfl
      | some attacker_host =>
        dsimp only
        cases attacker_host.getRootUser with
        | error e => rfl
        | ok attacker_user =>
          dsimp only
          exact generatePathsLoop_uuid_irrelevant t attacker_host attacker_user
            external_subnet t.goals rng 0 u1 u2

/-! ### The subnet-route BFS on a two-subnet topology -/

theorem bfsScanConns_two_names (n1 n2 : String) (h12 : n1 ≠ n2) :
    ∀ (conns : List SubnetConnection) (queue : List (String × List String)),
      (∀ c ∈ conns, (c.from_subnet = n1 ∨ c.from_subnet = n2) ∧
        (c.to_subnet = n1 ∨ c.to_subnet = n2)) →
      bfsScanConns n2 n1 [n1] conns queue [n1] = .error [n1, n2] ∨
      bfsScanConns n2 n1 [n1] conns queue [n1] = .ok (queue, [n1]) := by
  intro conns
  induction conns with
  | nil => intro queue _; exact Or.inr rfl
  | cons c rest ih =>
    intro queue hc
    have hhead := hc c (List.mem_cons_self c rest)
    have htail : ∀ c2 ∈ rest, (c2.from_subnet = n1 ∨ c2.from_subnet = n2) ∧
        (c2.to_subnet = n1 ∨ c2.to_subnet = n2) :=
      fun c2 h2 => hc c2 (List.mem_cons_of_mem c h2)
    unfold bfsScanConns
    have hgo : ∀ (n : String), n = n1 ∨ n = n2 →
        (match some n with
          | some n =>
            if n != "" && !([n1].contains n) then
              if n == n2 then Except.error ([n1] ++ [n])
              else bfsScanConns n2 n1 [n1] rest (queue ++ [(n, [n1] ++ [n])]) ([n1] ++ [n])
            else bfsScanConns n2 n1 [n1] rest queue [n1]
          | none => bfsScanConns n2 n1 [n1] rest queue [n1])
          = Except.error [n1, n2] ∨
        (match some n with
          | some n =>
            if n != "" && !([n1].contains n) then
              if n == n2 then Except.error ([n1] ++ [n])
              else bfsScanConns n2 n1 [n1] rest (queue ++ [(n, [n1] ++ [n])]) ([n1] ++ [n])
            else bfsScanConns n2 n1 [n1] rest queue [n1]
          | none => bfsScanConns n2 n1 [n1] rest queue [n1])
          = Except.ok (queue, [n1]) := by
      intro n hn
      dsimp only
      rcases hn with h | h
      · have hcont : ([n1].contains n) = true := by rw [h]; simp
        rw [hcont]
        simp only [Bool.not_true, Bool.and_false, Bool.false_eq_true, if_false]
        exact ih queue htail
      · by_cases hne : n = ""
        · rw [hne]
          simp only [bne_self_eq_false, Bool.false_and, Bool.false_eq_true, if_false]
          exact ih queue htail
        · have hbne : (n != "") = true := by simpa using hne
          have hcont : ([n1].contains n) = false := by
            rw [h]
            simp only [List.contains_cons, List.contains_nil, Bool.or_false,
              beq_eq_false_iff_ne]
            exact fun habs => h12 habs.symm
          rw [hbne, hcont]
          simp only [Bool.not_false, Bool.and_true, if_true]
          rw [h]
          simp only [beq_self_eq_true, if_true]
          exact Or.inl rfl
    by_cases h1 : c.from_subnet == n1
    · simp only [h1, if_true]
      exact hgo c.to_subnet hhead.2
    · simp only [h1, Bool.false_eq_true, if_false]
      by_cases h2 : c.bidirectional && (c.to_subnet == n1)
      · simp only [h2, if_true]
        exact hgo c.from_subnet hhead.1
      · simp only [h2, Bool.false_eq_true, if_false]
        exact ih queue htail

theorem findSubnetPath_two_names (t : NetworkTopology) (n1 n2 : String)
    (h12 : n1 ≠ n2)
    (hconns : ∀ c ∈ t.subnet_connections,
      (c.from_subnet = n1 ∨ c.from_subnet = n2) ∧
      (c.to_subnet = n1 ∨ c.to_subnet = n2)) :
    t.findSubnetPath n1 n2 = none ∨ t.findSubnetPath n1 n2 = some [n1, n2] := by
  unfold NetworkTopology.findSubnetPath
  rw [if_neg (by simpa using h12)]
  have hstep : bfsLoop t.subnet_connections n2
      (2 * t.subnet_connections.length + 2) [(n1, [n1])] [n1]
      = match bfsScanConns n2 n1 [n1] t.subnet_connections [] [n1] with
        | .error found => some found
        | .ok (queue2, visited2) =>
          bfsLoop t.subnet_connections n2 (2 * t.subnet_connections.length + 1)
            queue2 visited2 := rfl
  rw [hstep]
  rcases bfsScanConns_two_names n1 n2 h12 t.subnet_connections [] hconns with
    h | h
  · rw [h]
    exact Or.inr rfl
  · rw [h]
    exact Or.inl rfl

theorem getAllHosts_false_eq (t : NetworkTopology) :
    t.getAllHosts false = t.getAllSubnets.flatMap Subnet.hosts := by
  unfold NetworkTopology.getAllHosts NetworkTopology.getAllSubnets
  have hassoc : t.networks.flatMap (fun n => n.subnets.flatMap (fun s => s.hosts))
      = (t.networks.flatMap (fun n => n.subnets)).flatMap Subnet.hosts := by
    rw [List.flatMap_assoc]
  cases t.attacker_host with
  | none => exact hassoc
  | some a => simpa using hassoc

theorem getD_mod_mem {α : Type} [Inhabited α] (l : List α) (hne : l ≠ [])
    (i : Nat) : l.getD (i % l.length) default ∈ l := by
  have hlen : 0 < l.length := List.length_pos.mpr hne
  have hidx : i % l.length < l.length := Nat.mod_lt _ hlen
  rw [List.getD_eq_getElem?_getD, List.getElem?_eq_getElem hidx]
  exact List.getElem_mem hidx


theorem afterWalkStage_hop (target_host : Host) (target_user : User)
    (steps2 : List AttackStep) (ch : Host) (cu : User)
    (hne : ch.id ≠ target_host.id)
    (hnror : nonRootOrRootUser target_host = .ok target_user) :
    afterWalkStage target_host target_user steps2 ch cu
      = .ok (steps2 ++ [.lateralMovement ch.id target_host.id cu.id
          target_user.id none]) := by
  unfold afterWalkStage finalHopStage
  rw [if_pos (by simpa using hne), hnror]
  dsimp only
  rw [if_neg (by simp)]
  unfold emptyStepsFallback
  rw [if_neg (by simp)]

theorem afterWalkStage_noHop (target_host : Host) (target_user : User)
    (steps2 : List AttackStep) (hne : steps2 ≠ []) :
    afterWalkStage target_host target_user steps2 target_host target_user
      = .ok steps2 := by
  unfold afterWalkStage finalHopStage
  rw [if_neg (by simp)]
  dsimp only
  rw [if_neg (by simp)]
  unfold emptyStepsFallback
  rw [if_neg (by simpa using hne)]

theorem walkSubnets_single_hop (t : NetworkTopology) (s2 : Subnet) (H2 : Host)
    (ru : User) (steps0 : List AttackStep) (H1 : Host) (cu : User) (rng2 : Rng)
    (e_subname2 : t.getSubnetByName s2.name = some s2)
    (h_hosts2 : s2.hosts = [H2])
    (e_nror2 : nonRootOrRootUser H2 = .ok ru) :
    walkSubnets t [s2.name] steps0 H1 cu rng2
      = .ok (steps0 ++ [.lateralMovement H1.id H2.id cu.id ru.id none],
          H2, ru, rng2.next.2) := by
  unfold walkSubnets
  rw [e_subname2]
  dsimp only
  rw [if_neg (by rw [h_hosts2]; simp)]
  have e_choice : randomChoice rng2 s2.hosts = (H2, rng2.next.2) := by
    rw [h_hosts2]
    unfold randomChoice
    simp [Nat.mod_one, List.getD]
  rw [e_choice]
  dsimp only
  rw [e_nror2]
  dsimp only
  rw [walkSubnets]

/-- C5 (amended): in every topology consisting of an external subnet
holding exactly host H1, a second subnet holding exactly host H2, an
attacker host A with a root user, and one goal targeting H2's
root-equivalent user — amended with the hypothesis, forced by the code's
choice of a non-root user for the final hop, that H2 carries no non-root
user — the generator emits exactly one attack path whose steps are
exactly the two lateral movements A to H1 and H1 to H2, with no trailing
privilege escalation. The distinct-id hypotheses say the scenario's three
hosts are distinct, as the source's pydantic step validator requires. -/
theorem claim_C5_two_subnet_scenario (t : NetworkTopology) (s1 s2 : Subnet)
    (H1 H2 A : Host) (au ru : User) (goal : GoalU) (rng : Rng)
    (uuid : Nat → Nat)
    (h_subnets : t.getAllSubnets = [s1, s2])
    (h_attacker : t.attacker_host = some A)
    (h_goals : t.goals = [goal])
    (h_ext1 : s1.external = true)
    (h_hosts1 : s1.hosts = [H1])
    (h_hosts2 : s2.hosts = [H2])
    (h_id12 : H1.id ≠ H2.id)
    (h_idA1 : A.id ≠ H1.id)
    (h_idA2 : A.id ≠ H2.id)
    (h_users1 : H1.users ≠ [])
    (h_rootA : A.getRootUser = .ok au)
    (h_resolve : resolveGoalTargetUser t goal H2 = .ok ru)
    (h_target : goal.targetHostId = H2.id)
    (h_nonroot2 : getNonRootUser H2 = none)
    (h_rootH2 : H2.getRootUser = .ok ru)
    (h_conns : ∀ c ∈ t.subnet_connections,
      (c.from_subnet = s1.name ∨ c.from_subnet = s2.name) ∧
      (c.to_subnet = s1.name ∨ c.to_subnet = s2.name)) :
    ∃ cu ∈ H1.users,
      generatePathsForTopology t rng uuid = .ok
        [{ id := uuid 0, start_host_id := A.id, start_user_id := au.id,
           target_host_id := H2.id, target_user_id := ru.id,
           steps := [.lateralMovement A.id H1.id au.id cu.id none,
                     .lateralMovement H1.id H2.id cu.id ru.id none] }] := by
  have e_ext : getExternalSubnet t = some s1 := by
    unfold getExternalSubnet
    rw [h_subnets]
    rw [List.find?_cons_of_pos _ (by rw [h_ext1])]
  have e_empty : s1.hosts.isEmpty = false := by
    rw [h_hosts1]
    rfl
  have e_hostH2 : t.getHostById goal.targetHostId false = some H2 := by
    unfold NetworkTopology.getHostById
    rw [getAllHosts_false_eq, h_subnets, h_target]
    have hflat : ([s1, s2].flatMap Subnet.hosts) = [H1, H2] := by
      simp [h_hosts1, h_hosts2]
    rw [hflat]
    rw [List.find?_cons_of_neg _ (by simpa using h_id12)]
    rw [List.find?_cons_of_pos _ (by simp)]
  have e_choice1 : randomChoice rng s1.hosts = (H1, rng.next.2) := by
    rw [h_hosts1]
    unfold randomChoice
    simp [Nat.mod_one, List.getD]
  have hH1H2 : H1 ≠ H2 := fun habs => h_id12 (by rw [habs])
  have e_sub1 : t.getSubnetForHost H1 = some s1 := by
    unfold NetworkTopology.getSubnetForHost
    rw [h_subnets]
    rw [List.find?_cons_of_pos _ (by rw [h_hosts1]; simp)]
  have e_sub2 : t.getSubnetForHost H2 = some s2 := by
    unfold NetworkTopology.getSubnetForHost
    rw [h_subnets]
    rw [List.find?_cons_of_neg _ (by rw [h_hosts1]; simp [hH1H2])]
    rw [List.find?_cons_of_pos _ (by rw [h_hosts2]; simp)]
  have e_nror2 : nonRootOrRootUser H2 = .ok ru := by
    unfold nonRootOrRootUser
    rw [h_nonroot2, h_rootH2]
  refine ⟨(randomChoice rng.next.2 H1.users).1, ?_, ?_⟩
  · unfold randomChoice
    exact getD_mod_mem H1.users h_users1 _
  have hcore : ∃ rng3, generatePathCore t A au s1 goal rng = .ok
      ({ start_host_id := A.id, start_user_id := au.id,
         target_host_id := H2.id, target_user_id := ru.id,
         steps := [.lateralMovement A.id H1.id au.id
             (randomChoice rng.next.2 H1.users).1.id none,
           .lateralMovement H1.id H2.id
             (randomChoice rng.next.2 H1.users).1.id ru.id none] }, rng3) := by
    unfold generatePathCore
    rw [e_hostH2]
    dsimp only
    rw [h_resolve]
    dsimp only
    rw [e_choice1]
    dsimp only
    rw [e_sub1, e_sub2]
    dsimp only
    by_cases hname : s1.name = s2.name
    · have e_path : t.findSubnetPath s1.name s2.name = some [s1.name] := by
        unfold NetworkTopology.findSubnetPath
        rw [if_pos (by simpa using hname)]
      rw [e_path]
      dsimp only
      refine ⟨(randomChoice rng.next.2 H1.users).2, ?_⟩
      rw [show (List.drop 1 [s1.name]) = ([] : List String) from rfl]
      rw [walkSubnets]
      dsimp only
      rw [afterWalkStage_hop H2 ru _ H1 _ h_id12 e_nror2]
      rfl
    · rcases findSubnetPath_two_names t s1.name s2.name hname h_conns with
        e_path | e_path
      · rw [e_path]
        dsimp only
        refine ⟨(randomChoice rng.next.2 H1.users).2, ?_⟩
        rw [show (List.drop 1 [s1.name]) = ([] : List String) from rfl]
        rw [walkSubnets]
        dsimp only
        rw [afterWalkStage_hop H2 ru _ H1 _ h_id12 e_nror2]
        rfl
      · rw [e_path]
        dsimp only
        have e_subname2 : t.getSubnetByName s2.name = some s2 := by
          unfold NetworkTopology.getSubnetByName
          rw [h_subnets]
          rw [List.find?_cons_of_neg _ (by simpa using hname)]
          rw [List.find?_cons_of_pos _ (by simp)]
        refine ⟨((randomChoice rng.next.2 H1.users).2).next.2, ?_⟩
        rw [show (List.drop 1 [s1.name, s2.name]) = [s2.name] from rfl]
        rw [walkSubnets_single_hop t s2 H2 ru _ H1 _ _ e_subname2 h_hosts2
          e_nror2]
        dsimp only
        rw [afterWalkStage_noHop H2 ru _ (by simp)]
        rfl
  rcases hcore with ⟨rng3, hcore⟩
  unfold generatePathsForTopology
  rw [e_ext]
  dsimp only
  rw [if_neg (by rw [e_empty]; intro habs; cases habs)]
  rw [h_attacker]
  dsimp only
  rw [h_rootA]
  dsimp only
  rw [h_goals]
  unfold generatePathsLoop generatePathForGoal
  rw [hcore]
  dsimp only
  rw [generatePathsLoop]
  rfl

/-! ### Concrete C5 scenario instances -/

/-- Attacker root user. -/
def c5RootA : User := createDefaultRootUser 1

/-- Root user of H1. -/
def c5RootH1 : User := createDefaultRootUser 3

/-- Root user of H2. -/
def c5RootH2 : User := createDefaultRootUser 5

/-- A non-root user placed on H2 in the counterexample instance. -/
def c5Alice : User :=
  { id := 4, username := "alice", password := "perry123", is_admin := false,
    is_decoy := false, ssh_keys := [], home_directory := "/home/alice/" }

/-- The attacker host A. -/
def c5AttackerHost : Host :=
  { id := 100, name := "attacker", os_type := .kaliLinux, flavor := .tiny,
    ip_address := none, users := [c5RootA], vulnerabilities := [],
    is_attacker := true, is_decoy := false }

/-- Host H1 in the external subnet. -/
def c5H1 : Host :=
  { id := 101, name := "web", os_type := .ubuntu20, flavor := .tiny,
    ip_address := none, users := [c5RootH1], vulnerabilities := [],
    is_attacker := false, is_decoy := false }

/-- H2 carrying a non-root user (the counterexample instance). -/
def c5H2bad : Host :=
  { id := 102, name := "db", os_type := .ubuntu20, flavor := .tiny,
    ip_address := none, users := [c5Alice, c5RootH2], vulnerabilities := [],
    is_attacker := false, is_decoy := false }

/-- H2 carrying only its root user (the amended instance). -/
def c5H2good : Host :=
  { id := 102, name := "db", os_type := .ubuntu20, flavor := .tiny,
    ip_address := none, users := [c5RootH2], vulnerabilities := [],
    is_attacker := false, is_decoy := false }

/-- The external subnet holding exactly H1. -/
def c5SubnetExt : Subnet :=
  { id := 1, name := "ext", cidr := "10.0.1.0/24", dns_servers := ["8.8.8.8"],
    hosts := [c5H1], gateway_ip := none, external := true }

/-- The second subnet holding exactly the given H2. -/
def c5SubnetInt (h2 : Host) : Subnet :=
  { id := 2, name := "int", cidr := "10.0.2.0/24", dns_servers := ["8.8.8.8"],
    hosts := [h2], gateway_ip := none, external := false }

/-- The goal targeting H2's root-equivalent user. -/
def c5Goal : GoalU :=
  GoalU.base { type := .hostAccess, target_host_id := 102, target_user_id := 5 }

/-- The two-subnet scenario topology, parameterised by H2. -/
def c5TopoWith (h2 : Host) : NetworkTopology :=
  { name := "c5"
    networks := [{ name := "net", description := "",
                   subnets := [c5SubnetExt, c5SubnetInt h2],
                   is_external := false }]
    subnet_connections := []
    goals := [c5Goal]
    attack_paths := []
    attacker_host := some c5AttackerHost }

/-- C5 counterexample to the claim as stated: in the scenario instance
where H2 carries the non-root user alice, the single generated path has
three steps and ends with a trailing privilege escalation — the final hop
picks the non-root user, and the goal's root-equivalent target then
forces an escalation — contradicting the claimed step list
`[Lateral(A to H1), Lateral(H1 to H2)]` with no trailing escalation. -/
theorem claim_C5_two_subnet_scenario_counterexample :
    generatePathsForTopology (c5TopoWith c5H2bad) ⟨[]⟩ (fun n => 900 + n)
      = .ok [{ id := 900, start_host_id := 100, start_user_id := 1,
               target_host_id := 102, target_user_id := 5,
               steps := [.lateralMovement 100 101 1 3 none,
                         .lateralMovement 101 102 3 4 none,
                         .privilegeEscalation 102 4 5 none] }] := by
  rfl

/-- Decides that a generator run produced exactly one path made of
exactly two lateral movements (so no trailing escalation). -/
def twoLateralMovementsOnly (r : Except String (List AttackPath)) : Bool :=
  match r with
  | .ok [p] => p.steps.length == 2 && p.steps.all stepIsLateral
  | _ => false

theorem claim_C5_two_subnet_scenario_witness :
    twoLateralMovementsOnly
      (generatePathsForTopology (c5TopoWith c5H2good) ⟨[]⟩ (fun n => 900 + n))
      = true := by
  rcases claim_C5_two_subnet_scenario (c5TopoWith c5H2good) c5SubnetExt
      (c5SubnetInt c5H2good) c5H1 c5H2good c5AttackerHost c5RootA c5RootH2
      c5Goal ⟨[]⟩ (fun n => 900 + n) (by rfl) (by rfl) (by rfl) (by rfl)
      (by rfl) (by rfl) (by decide) (by decide) (by decide) (by decide)
      (by rfl) (by rfl) (by rfl) (by rfl) (by rfl)
      (by intro c hc; simp [c5TopoWith] at hc) with
    ⟨cu, hcu, heq⟩
  rw [heq]
  rfl
